import Mathlib

/-!
Verification of the tree-individualization core of `dendromatics`
(`src/dendromatics/individualize.py`): `compute_axes_exact`,
`compute_axes_approximate` and `compute_heights`.

Embedding conventions.

* A point-cloud row is a `List ℚ` of field values; fields are addressed by a
  caller-supplied positional index, negative indices counting from the end as
  in Python (`tree_id_field` defaults to `-1`).
* External collaborators (PCA, voxelization, DBSCAN), which the spec lists as
  out of scope, are passed in as oracle parameters.
* Distances are represented by their squares.  The source manipulates
  Euclidean distances (square roots of rational quantities) only through
  order comparisons (`< d_max`, `< dist_to_axis`, `> d_max`, running minima)
  and through clamping at `d_max`; all of these commute with squaring on the
  nonnegative values involved (the parameters `d_max`, `d` being nonnegative),
  so the embedding stores squared distances and compares them with `d_max ^ 2`.
  The sample count `int(distance / SAMPLE_STEP)` equals
  `⌊√(distanceSq / step²)⌋`, which is computed exactly on ℚ by
  `nat_floor_sqrt ∘ Int.toNat ∘ Rat.floor`.
* Python exceptions (`RuntimeError`, `ValueError` from `np.concatenate`,
  `IndexError` from out-of-range fancy indexing, `ValueError` from `np.argmax`
  on an empty selection) are modelled by `Except PyErr`.
* The progress callback takes two ints and returns nothing; its presence is a
  `Bool` and the arguments of the calls made to it are recorded in a `trace`
  list, so that "the hook does not affect results" and "absence is a no-op"
  are statable.
-/

namespace Dendromatics

abbrev Row := List ℚ

abbrev Cloud := List Row

/-- Python-style positional access `r[i]`: a negative index counts from the
end of the row (`r[-1]` is the last field).  Out-of-range access defaults to
`0`; every access performed in the theorems below is in range. -/
def fget (r : Row) (i : Int) : ℚ :=
  if 0 ≤ i then r.getD i.toNat 0 else r.getD (r.length - i.natAbs) 0

/-- The source's sentinel constant `100000` used for unassigned `tree_id`
(and, as a distance, for unassigned `dist_to_axis`). -/
def sentinel : ℚ := 100000

/-- The sentinel distance in the squared representation. -/
def sentinelSq : ℚ := sentinel ^ 2

/-- `np.mean` of a value list. -/
def meanQ (l : List ℚ) : ℚ := l.sum / (l.length : ℚ)

/-- `np.ptp`: maximum minus minimum of a (nonempty) value list. -/
def ptpQ : List ℚ → ℚ
  | [] => 0
  | a :: t => t.foldl max a - t.foldl min a

def insertQ (a : ℚ) : List ℚ → List ℚ
  | [] => [a]
  | b :: t => if a ≤ b then a :: b :: t else b :: insertQ a t

/-- Insertion sort on ℚ, ascending. -/
def sortQ (l : List ℚ) : List ℚ := l.foldr insertQ []

/-- `np.unique` of a value list: its distinct values in increasing order. -/
def uniqueSorted (l : List ℚ) : List ℚ := sortQ l.dedup

/-- Cluster ids surviving the size filter
`filt_unique_values = unique_values[n > min_points]` (lines 93–96 and
356–359): the distinct values of the stripe's id column whose multiplicity is
strictly greater than `min_points`. -/
def filt_ids (vals : List ℚ) (min_points : ℕ) : List ℚ :=
  (uniqueSorted vals).filter (fun i => decide (min_points < vals.count i))

/-- Rows of the stripe belonging to cluster `i`
(`clust_stripe[clust_stripe[:, tree_id_field] == i]`). -/
def stem_rows (clust_stripe : Cloud) (tree_id_field : Int) (i : ℚ) : Cloud :=
  clust_stripe.filter (fun r => decide (fget r tree_id_field = i))

/-- `stem_i = clust_stripe[tree_mask][:, [X_field, Y_field, Z_field]]`:
the cluster's rows reduced to three columns, in the order x, y, z. -/
def stem_xyz (clust_stripe : Cloud) (tree_id_field : Int) (i : ℚ)
    (X_field Y_field Z_field : Int) : Cloud :=
  (stem_rows clust_stripe tree_id_field i).map
    (fun r => [fget r X_field, fget r Y_field, fget r Z_field])

/-- `diff_z_z0` (lines 127–130): mean raw z minus mean normalized z0 over the
cluster's rows. -/
def diff_z_z0 (clust_stripe : Cloud) (tree_id_field : Int) (i : ℚ)
    (Z_field Z0_field : Int) : ℚ :=
  meanQ ((stem_rows clust_stripe tree_id_field i).map (fun r => fget r Z_field)) -
    meanQ ((stem_rows clust_stripe tree_id_field i).map (fun r => fget r Z0_field))

/-- `np.mean(stem_i, axis=0)`: componentwise mean of the three stem columns. -/
def mean_cols (c : Cloud) : Row :=
  [meanQ (c.map (fun r => r.getD 0 0)),
   meanQ (c.map (fun r => r.getD 1 0)),
   meanQ (c.map (fun r => r.getD 2 0))]

/-- The PCA collaborator (spec §6): from a 3-column point set it returns the
first principal component `components_[0]` and the coordinate `transform`
into the PCA basis. -/
abbrev PCAOracle := Cloud → Row × (Row → Row)

/-- The vertical-extent filter (lines 134 and 402):
`np.ptp(stem_i[:, Z_field]) > h_range_value`.  Note that `stem_i` has already
been reduced to the three columns x, y, z, so `Z_field` here indexes that
reordered 3-column array, exactly as in the source. -/
def valid_stem (clust_stripe : Cloud) (tree_id_field : Int)
    (X_field Y_field Z_field : Int) (hrv : ℚ) (i : ℚ) : Bool :=
  decide (ptpQ ((stem_xyz clust_stripe tree_id_field i X_field Y_field Z_field).map
    (fun r => fget r Z_field)) > hrv)

/-- One row of `detected_trees` (lines 141–151 / 409–421): tree id, the three
PCA1 components, the three centroid coordinates, the z−z0 height difference,
and the vertical deviation angle.  The deviation-angle computation (a float
arctangent) is the oracle `dev`; its exact-real content is modelled separately
by `deviation_deg` below. -/
def tree_row (pca : PCAOracle) (dev : Row → ℚ) (clust_stripe : Cloud)
    (tree_id_field : Int) (X_field Y_field Z_field Z0_field : Int) (i : ℚ) : Row :=
  let stem := stem_xyz clust_stripe tree_id_field i X_field Y_field Z_field
  let dir := (pca stem).1
  [i] ++ dir ++ mean_cols stem ++
    [diff_z_z0 clust_stripe tree_id_field i Z_field Z0_field, dev dir]

/-- Squared perpendicular distance of a cloud row to cluster `i`'s axis
(lines 153–158): transform the row's x, y, z through the stem's PCA and take
the quadratic component of the second and third coordinates. -/
def axis_dist_sq (pca : PCAOracle) (clust_stripe : Cloud) (tree_id_field : Int)
    (X_field Y_field Z_field : Int) (i : ℚ) (r : Row) : ℚ :=
  let tr := (pca (stem_xyz clust_stripe tree_id_field i X_field Y_field Z_field)).2
  let c := tr [fget r X_field, fget r Y_field, fget r Z_field]
  (c.getD 1 0) ^ 2 + (c.getD 2 0) ^ 2

/-- The in-place refinement of the two assignment arrays for a single stem
(lines 163–165), per point: reassign iff the new squared distance is below
`d_max ^ 2` and strictly below the recorded one. -/
def assign_step (d_max : ℚ) (dt : ℚ × ℚ) (c : ℚ × ℚ) : ℚ × ℚ :=
  if c.2 < d_max ^ 2 ∧ c.2 < dt.1 then (c.2, c.1) else dt

/-- Folding `assign_step` over a list of (tree id, squared axis distance)
candidates: the per-point view of the exact strategy's loop across stems. -/
def assignFold (d_max : ℚ) (init : ℚ × ℚ) (cands : List (ℚ × ℚ)) : ℚ × ℚ :=
  cands.foldl (assign_step d_max) init

/-- The cluster ids that both pass the size filter and the vertical-extent
filter: the valid tree axes, in loop order. -/
def valid_ids (clust_stripe : Cloud) (tree_id_field X_field Y_field Z_field : Int)
    (hrv : ℚ) (min_points : ℕ) : List ℚ :=
  (filt_ids (clust_stripe.map (fun r => fget r tree_id_field)) min_points).filter
    (fun i => valid_stem clust_stripe tree_id_field X_field Y_field Z_field hrv i)

/-- For one cloud row, the (tree id, squared axis distance) candidate list
over all valid axes. -/
def point_cands (pca : PCAOracle) (clust_stripe : Cloud)
    (tree_id_field X_field Y_field Z_field : Int) (hrv : ℚ) (min_points : ℕ)
    (r : Row) : List (ℚ × ℚ) :=
  (valid_ids clust_stripe tree_id_field X_field Y_field Z_field hrv min_points).map
    (fun i => (i, axis_dist_sq pca clust_stripe tree_id_field X_field Y_field Z_field i r))

/-- The minimum candidate squared distance (the sentinel when there is no
candidate). -/
def min_cand_sq (cands : List (ℚ × ℚ)) : ℚ :=
  (cands.map Prod.snd).foldl min sentinelSq

/-- Loop state of `compute_axes_exact`: the detected-tree rows, the per-point
(squared distance, tree id) assignment pairs, the progress counter, and the
trace of progress-hook calls. -/
structure ExState where
  detected : List Row
  assign : List (ℚ × ℚ)
  prog : ℕ
  trace : List (ℕ × ℕ)
deriving DecidableEq

/-- Body of the stem loop of `compute_axes_exact` (lines 121–176) for one
candidate cluster id. -/
def ex_step (pca : PCAOracle) (dev : Row → ℚ) (voxelated_cloud clust_stripe : Cloud)
    (hrv d_max : ℚ) (X_field Y_field Z_field Z0_field tree_id_field : Int)
    (nvals : ℕ) (hook : Bool) (s : ExState) (i : ℚ) : ExState :=
  if valid_stem clust_stripe tree_id_field X_field Y_field Z_field hrv i then
    let row := tree_row pca dev clust_stripe tree_id_field X_field Y_field Z_field Z0_field i
    let adSq := voxelated_cloud.map
      (axis_dist_sq pca clust_stripe tree_id_field X_field Y_field Z_field i)
    { detected := s.detected ++ [row],
      assign := List.zipWith (fun dt a => assign_step d_max dt (i, a)) s.assign adSq,
      prog := s.prog + 1,
      trace := if hook then s.trace ++ [(s.prog + 1, nvals)] else s.trace }
  else
    { s with prog := s.prog + 1,
             trace := if hook then s.trace ++ [(s.prog + 1, nvals)] else s.trace }

/-- The stem loop of `compute_axes_exact`, as a fold over the candidate id
list. -/
def exact_loop (pca : PCAOracle) (dev : Row → ℚ) (voxelated_cloud clust_stripe : Cloud)
    (hrv d_max : ℚ) (X_field Y_field Z_field Z0_field tree_id_field : Int)
    (nvals : ℕ) (hook : Bool) (ids : List ℚ) (s : ExState) : ExState :=
  ids.foldl (ex_step pca dev voxelated_cloud clust_stripe hrv d_max
    X_field Y_field Z_field Z0_field tree_id_field nvals hook) s

/-- Initial state: both assignment arrays filled with the sentinel
(lines 89–90), plus the initial `progress_hook(0, n_values)` call when the
hook is present (lines 119–120). -/
def ex_init (voxelated_cloud : Cloud) (hook : Bool) (nvals : ℕ) : ExState :=
  { detected := [], assign := List.replicate voxelated_cloud.length (sentinelSq, sentinel),
    prog := 0, trace := if hook then [(0, nvals)] else [] }

/-- `detected_trees = detected_trees[~np.all(detected_trees == 0, axis=1)]`
(lines 179 / 469): delete every all-zero row. -/
def drop_zero_rows (l : List Row) : List Row :=
  l.filter (fun r => !(r.all (fun q => q == 0)))

/-- `compute_axes_exact` (lines 15–180).  Returns the detected-tree rows, the
squared distance-to-axis array, the tree-id array, and the trace of
progress-hook calls. -/
def compute_axes_exact (pca : PCAOracle) (dev : Row → ℚ)
    (voxelated_cloud clust_stripe : Cloud)
    (stripe_lower_limit stripe_upper_limit h_range : ℚ) (min_points : ℕ) (d_max : ℚ)
    (X_field Y_field Z_field Z0_field tree_id_field : Int) (hook : Bool) :
    List Row × List ℚ × List ℚ × List (ℕ × ℕ) :=
  let hrv := (stripe_upper_limit - stripe_lower_limit) * h_range
  let ids := filt_ids (clust_stripe.map (fun r => fget r tree_id_field)) min_points
  let sF := exact_loop pca dev voxelated_cloud clust_stripe hrv d_max
    X_field Y_field Z_field Z0_field tree_id_field ids.length hook ids
    (ex_init voxelated_cloud hook ids.length)
  (drop_zero_rows sF.detected, sF.assign.map Prod.fst, sF.assign.map Prod.snd, sF.trace)

/-! ### The approximate strategy -/

abbrev V3 := ℚ × ℚ × ℚ

def v3z (v : V3) : ℚ := v.2.2

def v3add (a b : V3) : V3 := (a.1 + b.1, a.2.1 + b.2.1, a.2.2 + b.2.2)

def v3sub (a b : V3) : V3 := (a.1 - b.1, a.2.1 - b.2.1, a.2.2 - b.2.2)

def v3smul (t : ℚ) (a : V3) : V3 := (t * a.1, t * a.2.1, t * a.2.2)

def v3dot (a b : V3) : ℚ := a.1 * b.1 + a.2.1 * b.2.1 + a.2.2 * b.2.2

def v3normSq (a : V3) : ℚ := v3dot a a

/-- `_vector_plane_intersection` (lines 313–348): `none` when the axis is
parallel to the plane (`|denom| < 1e-6`, returning Python `None`), otherwise
the intersection point. -/
def vector_plane_intersection (axis_pos axis_norm plane_pos plane_norm : V3) : Option V3 :=
  let denom := v3dot axis_norm plane_norm
  if |denom| < 1 / 1000000 then none
  else some (v3add axis_pos (v3smul (v3dot plane_norm (v3sub plane_pos axis_pos) / denom) axis_norm))

/-- `_axis_bb_inter` (lines 271–311): intersections with the top plane
(through `tp_pos`, normal (0,0,−1)) and the bottom plane (through `bp_pos`,
normal (0,0,1)); `none` models the `RuntimeError` raised when either is
missing.  Returns (bottom, top). -/
def axis_bb_inter (axis_pos axis_norm tp_pos bp_pos : V3) : Option (V3 × V3) :=
  match vector_plane_intersection axis_pos axis_norm tp_pos (0, 0, -1),
        vector_plane_intersection axis_pos axis_norm bp_pos (0, 0, 1) with
  | some t, some b => some (b, t)
  | _, _ => none

/-- `⌊√n⌋` for a natural `n`, computed by counting the `k ≤ n` with `k² ≤ n`
(they are exactly `0, …, ⌊√n⌋`). -/
def nat_floor_sqrt (n : ℕ) : ℕ :=
  ((List.range (n + 1)).filter (fun k => decide (k * k ≤ n))).length - 1

/-- `⌊√q⌋` for a rational `q ≥ 0`, computed exactly (for an integer bound `n`,
`n² ≤ q` iff `n² ≤ ⌊q⌋`, so `⌊√q⌋ = ⌊√⌊q⌋⌋`). -/
def rat_floor_sqrt (q : ℚ) : ℕ := nat_floor_sqrt q.floor.toNat

/-- Axis sampling (lines 425–432): `num_samples = int(distance / SAMPLE_STEP)`
evenly spaced points starting at the bottom intersection, walking along the
axis direction flipped upward when its z-component is negative
(lines 428–431).  `distance` is √ of the squared separation, so the count is
`⌊√(normSq / step²)⌋`. -/
def axis_samples (min_point max_point : V3) (dir : V3) (step : ℚ) : List V3 :=
  let num := rat_floor_sqrt (v3normSq (v3sub max_point min_point) / step ^ 2)
  let vec := if v3z dir < 0 then v3smul (-1) dir else dir
  (List.range num).map (fun k => v3add (v3smul ((k : ℚ) * step) vec) min_point)

/-- Take a row's first three entries as a vector. -/
def row_v3 (r : Row) : V3 := (r.getD 0 0, r.getD 1 0, r.getD 2 0)

/-- `voxelated_cloud[:, [X_field, Y_field, Z_field]]` as vectors. -/
def cloud_xyz (c : Cloud) (X_field Y_field Z_field : Int) : List V3 :=
  c.map (fun r => (fget r X_field, fget r Y_field, fget r Z_field))

/-- `np.min(..., axis=0)`: componentwise minimum (of a nonempty point list). -/
def v3list_min : List V3 → V3
  | [] => (0, 0, 0)
  | p :: t => t.foldl (fun a b => (min a.1 b.1, min a.2.1 b.2.1, min a.2.2 b.2.2)) p

/-- `np.max(..., axis=0)`: componentwise maximum (of a nonempty point list). -/
def v3list_max : List V3 → V3
  | [] => (0, 0, 0)
  | p :: t => t.foldl (fun a b => (max a.1 b.1, max a.2.1 b.2.1, max a.2.2 b.2.2)) p

/-- Loop state of `compute_axes_approximate`: detected rows, per-valid-axis
sample lists (`none` recording a plane-parallel geometry failure), the valid
tree ids, the progress counter, and the hook-call trace. -/
structure ApState where
  detected : List Row
  axes : List (Option (List V3))
  vids : List ℚ
  prog : ℕ
  trace : List (ℕ × ℕ)
deriving DecidableEq

/-- Body of the stem loop of `compute_axes_approximate` (lines 389–447) for
one candidate cluster id.  A geometry failure is recorded as `none` and
surfaced as the `RuntimeError` after the loop; in the source the exception
propagates immediately, which only shortens the progress trace, not the
returned value. -/
def ap_step (pca : PCAOracle) (dev : Row → ℚ) (clust_stripe : Cloud)
    (hrv step : ℚ) (X_field Y_field Z_field Z0_field tree_id_field : Int)
    (bbmin bbmax : V3) (nvals : ℕ) (hook : Bool) (s : ApState) (i : ℚ) : ApState :=
  if valid_stem clust_stripe tree_id_field X_field Y_field Z_field hrv i then
    let row := tree_row pca dev clust_stripe tree_id_field X_field Y_field Z_field Z0_field i
    let stem := stem_xyz clust_stripe tree_id_field i X_field Y_field Z_field
    let dir := row_v3 (pca stem).1
    let cent := row_v3 (mean_cols stem)
    let smp := (axis_bb_inter cent dir bbmax bbmin).map (fun p => axis_samples p.1 p.2 dir step)
    { detected := s.detected ++ [row], axes := s.axes ++ [smp], vids := s.vids ++ [i],
      prog := s.prog + 1,
      trace := if hook then s.trace ++ [(s.prog + 1, nvals)] else s.trace }
  else
    { s with prog := s.prog + 1,
             trace := if hook then s.trace ++ [(s.prog + 1, nvals)] else s.trace }

def approx_loop (pca : PCAOracle) (dev : Row → ℚ) (clust_stripe : Cloud)
    (hrv step : ℚ) (X_field Y_field Z_field Z0_field tree_id_field : Int)
    (bbmin bbmax : V3) (nvals : ℕ) (hook : Bool) (ids : List ℚ) (s : ApState) : ApState :=
  ids.foldl (ap_step pca dev clust_stripe hrv step X_field Y_field Z_field Z0_field
    tree_id_field bbmin bbmax nvals hook) s

def ap_init (hook : Bool) (nvals : ℕ) : ApState :=
  { detected := [], axes := [], vids := [], prog := 0,
    trace := if hook then [(0, nvals)] else [] }

/-- The k-d tree nearest-neighbour query (`tree.query(..., 1)`) over the
pooled samples, per query point: the squared distance to, and index of, the
nearest sample (earliest index on ties).  With no samples scipy reports an
infinite distance (here `none`) and the out-of-range index
`pooled.length`. -/
def knn_query (pooled : List V3) (p : V3) : Option ℚ × ℕ :=
  match pooled.enum.map (fun kq => (v3normSq (v3sub p kq.2), kq.1)) with
  | [] => (none, pooled.length)
  | c :: t => let b := t.foldl (fun b' c' => if c'.1 < b'.1 then c' else b') c
              (some b.1, b.2)

/-- Python exceptions reached by these functions. -/
inductive PyErr where
  | runtimeError
  | valueError
  | indexError
  | argmaxEmpty
deriving DecidableEq

/-- Lines 457–462: `tree_cluster = np.zeros(n)` where `n` is the size of the
voxelated cloud (not of the pooled sample set), then per-axis slice
assignments `tree_cluster[min_id : min_id + num_points] = valid_tree_ids[i]`;
a numpy slice assignment silently truncates at the end of the array. -/
def tag_array (n : ℕ) (axesL : List (List V3)) (vids : List ℚ) : List ℚ :=
  ((axesL.zip vids).foldl
    (fun st pr =>
      (st.1.mapIdx (fun k x => if st.2 ≤ k ∧ k < st.2 + pr.1.length then pr.2 else x),
       st.2 + pr.1.length))
    (List.replicate n (0 : ℚ), 0)).1

/-- The post-loop processing of `compute_axes_approximate` (lines 449–470),
as a function of the loop's collected detected rows, per-axis sample lists
and valid tree ids. -/
def approx_post (voxelated_cloud : Cloud) (d_max : ℚ) (pts : List V3)
    (detected : List Row) (axes : List (Option (List V3))) (vids : List ℚ) :
    Except PyErr (List Row × List ℚ × List ℚ) :=
  if axes.any (fun o => o.isNone) then
    -- the RuntimeError of `_axis_bb_inter` (line 309)
    .error .runtimeError
  else if axes.isEmpty then
    -- `np.concatenate` of an empty list (line 449) raises ValueError
    .error .valueError
  else
    let axesL := axes.map (fun o => o.getD [])
    let pooled := axesL.flatten
    let q := pts.map (knn_query pooled)
    -- line 454: dist_to_axis[dist_to_axis > d_max] = d_max  (clamping first)
    let distSq := q.map (fun o => match o.1 with
      | some dsq => if dsq > d_max ^ 2 then d_max ^ 2 else dsq
      | none => d_max ^ 2)
    let idxs := q.map Prod.snd
    let tcluster := tag_array voxelated_cloud.length axesL vids
    if idxs.any (fun k => decide (tcluster.length ≤ k)) then
      -- numpy fancy indexing `tree_cluster[indexes]` with an out-of-range index
      .error .indexError
    else
      let tid0 := idxs.map (fun k => tcluster.getD k 0)
      -- line 465: tree_id_vector[dist_to_axis > d_max] = NO_ID, applied to the
      -- already-clamped distances
      let tidv := List.zipWith (fun dsq t => if dsq > d_max ^ 2 then sentinel else t) distSq tid0
      .ok (drop_zero_rows detected, distSq, tidv)

/-- `compute_axes_approximate` (lines 183–470).  Returns the `Except`-value of
the run (detected rows, squared clamped distances, tree ids) and the trace of
progress-hook calls. -/
def compute_axes_approximate (pca : PCAOracle) (dev : Row → ℚ)
    (voxelated_cloud clust_stripe : Cloud)
    (stripe_lower_limit stripe_upper_limit h_range : ℚ) (min_points : ℕ)
    (voxel_resolution d_max : ℚ)
    (X_field Y_field Z_field Z0_field tree_id_field : Int) (hook : Bool) :
    Except PyErr (List Row × List ℚ × List ℚ) × List (ℕ × ℕ) :=
  let hrv := (stripe_upper_limit - stripe_lower_limit) * h_range
  let ids := filt_ids (clust_stripe.map (fun r => fget r tree_id_field)) min_points
  let pts := cloud_xyz voxelated_cloud X_field Y_field Z_field
  let sF := approx_loop pca dev clust_stripe hrv voxel_resolution
    X_field Y_field Z_field Z0_field tree_id_field
    (v3list_min pts) (v3list_max pts) ids.length hook ids (ap_init hook ids.length)
  (approx_post voxelated_cloud d_max pts sF.detected sF.axes sF.vids, sF.trace)

/-! ### Height computation -/

/-- The voxelization collaborator (spec §6): resolution, the three field
indices, the cloud; returns the coarse cloud and, for each fine point, the
index of its coarse voxel (so that `labels_[large_vox_to_cloud_ind]`
propagates coarse cluster labels onto the fine cloud). -/
abbrev VoxOracle := ℚ → Int → Int → Int → Cloud → Cloud × List ℕ

/-- The DBSCAN collaborator (spec §6): eps, min_samples, points; returns one
integer label per point, `-1` for noise. -/
abbrev DBSCANOracle := ℚ → ℕ → Cloud → List Int

/-- Line 574: cluster labels kept by the size filter, `K > 3` and not the
noise label `-1` (membership is what the subsequent `np.isin` uses, so the
sortedness of `np.unique` is immaterial). -/
def big_clusters (labels : List Int) : List Int :=
  labels.dedup.filter (fun c => decide (3 < labels.count c) && decide (c ≠ -1))

/-- Lines 538–577 of `compute_heights`: re-voxelize coarsely, cluster with
DBSCAN at `eps = resolution_heights * 1.9`, `min_samples = 2`, append the
propagated label and tree-id columns to the fine cloud, drop points with
squared distance-to-axis not below `d ^ 2`, and drop points whose label's
cluster has at most 3 coarse voxels or is noise. -/
def surviving_rows (vox_or : VoxOracle) (dbscan : DBSCANOracle)
    (voxelated_cloud : Cloud) (distSq tidv : List ℚ) (d resolution_heights : ℚ)
    (X_field Y_field Z_field : Int) : Cloud :=
  let pr := vox_or resolution_heights X_field Y_field Z_field voxelated_cloud
  let labels := dbscan (resolution_heights * 19 / 10) 2 pr.1
  let lab_fine := pr.2.map (fun k => ((labels.getD k (-1) : Int) : ℚ))
  let rows := (voxelated_cloud.zip (lab_fine.zip (tidv.zip distSq))).map
    (fun x => (x.1 ++ [x.2.1, x.2.2.1], x.2.2.2))
  let rows1 := rows.filter (fun x => decide (x.2 < d ^ 2))
  let bigQ := (big_clusters labels).map (fun c => (c : ℚ))
  (rows1.filter (fun x => decide (fget x.1 (-2) ∈ bigQ))).map Prod.fst

/-- `np.argmax`: index of the first occurrence of the maximum. -/
def argmax_idx : List ℚ → ℕ
  | [] => 0
  | a :: t => (t.foldl
      (fun b c => if c > b.1 then (c, b.2.2 + 1, b.2.2 + 1) else (b.1, b.2.1, b.2.2 + 1))
      ((a, 0, 0) : ℚ × ℕ × ℕ)).2.1

/-- Line 586: the surviving rows of one tree, reduced to the hard-coded
columns `0:3` (the source slices `[:, 0:3]` literally, not through the field
indices). -/
def tree_selection (rows : Cloud) (valid_id : ℚ) : Cloud :=
  (rows.filter (fun r => decide (fget r (-1) = valid_id))).map
    (fun r => [r.getD 0 0, r.getD 1 0, r.getD 2 0])

/-- Lines 585–596 for one detected tree: highest surviving point by column 2
(`np.argmax` raising on an empty selection), normalized height, and the
validity flag `0` iff the stored deviation angle exceeds `max_dev`. -/
def height_row (rows : Cloud) (max_dev : ℚ) (drow : Row) : Except PyErr Row :=
  match tree_selection rows (fget drow 0) with
  | [] => .error .argmaxEmpty
  | _ :: _ =>
    let single := tree_selection rows (fget drow 0)
    let hp := single.getD (argmax_idx (single.map (fun r => r.getD 2 0))) []
    .ok (hp ++ [hp.getD 2 0 - fget drow 7, if fget drow (-1) > max_dev then 0 else 1])

/-- The per-tree loop of `compute_heights` (lines 583–596), erroring at the
first tree whose selection is empty. -/
def heights_loop (rows : Cloud) (max_dev : ℚ) : List Row → Except PyErr (List Row)
  | [] => .ok []
  | drow :: rest =>
    match height_row rows max_dev drow with
    | .error e => .error e
    | .ok r =>
      match heights_loop rows max_dev rest with
      | .error e => .error e
      | .ok rs => .ok (r :: rs)

/-- `compute_heights` (lines 478–598). -/
def compute_heights (vox_or : VoxOracle) (dbscan : DBSCANOracle)
    (voxelated_cloud : Cloud) (detected_trees : List Row) (distSq tidv : List ℚ)
    (d max_dev resolution_heights : ℚ) (X_field Y_field Z_field : Int) :
    Except PyErr (List Row) :=
  heights_loop
    (surviving_rows vox_or dbscan voxelated_cloud distSq tidv d resolution_heights
      X_field Y_field Z_field)
    max_dev detected_trees

/-! ### The deviation-angle computation, with IEEE-754 division semantics

Lines 145–151 / 415–421 compute
`np.abs(np.degrees(np.arctan(np.hypot(x, y) / z)))` in floating point.  When
`z = 0` and `hypot(x, y) > 0`, IEEE division gives `+inf` and
`arctan(+inf) = π/2`, so the recorded deviation is 90 degrees and no error is
raised.  `FV` adjoins the two infinities and a NaN to a linearly ordered
field; the operations below follow the IEEE rules on the values this
computation can reach. -/

inductive FV (α : Type) where
  | fin : α → FV α
  | pinf
  | ninf
  | nanv
deriving DecidableEq

/-- IEEE division on the cases reachable here: a finite numerator over zero
gives a signed infinity (NaN for 0/0); finite over finite is exact; finite
over an infinity is zero; remaining mixed cases follow IEEE (inf/inf = NaN). -/
def fdiv {α : Type} [LinearOrderedField α] : FV α → FV α → FV α
  | .fin a, .fin b =>
    if b = 0 then (if 0 < a then .pinf else if a < 0 then .ninf else .nanv)
    else .fin (a / b)
  | .fin _, .pinf => .fin 0
  | .fin _, .ninf => .fin 0
  | .pinf, .fin b => if 0 ≤ b then .pinf else .ninf
  | .ninf, .fin b => if 0 ≤ b then .ninf else .pinf
  | _, _ => .nanv

/-- `np.arctan` extended to infinities: `arctan(±inf) = ±π/2`.  The finite
arctangent and the constant π/2 are supplied by the instantiation. -/
def fatan {α : Type} [LinearOrderedField α] (atanf : α → α) (halfpi : α) : FV α → FV α
  | .fin a => .fin (atanf a)
  | .pinf => .fin halfpi
  | .ninf => .fin (-halfpi)
  | .nanv => .nanv

/-- `np.degrees`: multiply by 180/π. -/
def fdegrees {α : Type} [LinearOrderedField α] (pi : α) : FV α → FV α
  | .fin a => .fin (a * 180 / pi)
  | .pinf => .pinf
  | .ninf => .ninf
  | .nanv => .nanv

/-- `np.abs`. -/
def fabs {α : Type} [LinearOrderedField α] : FV α → FV α
  | .fin a => .fin |a|
  | .pinf => .pinf
  | .ninf => .pinf
  | .nanv => .nanv

/-- The deviation-angle computation of lines 145–151 / 415–421:
`abs(degrees(arctan(hypot(x, y) / z)))`, with `hypot(x, y) = sqrt(x² + y²)`;
`sqrtf`, `atanf` and `pi` instantiate the square root, the arctangent and π
of the instantiating field. -/
def deviation_deg {α : Type} [LinearOrderedField α] (sqrtf atanf : α → α) (pi : α)
    (x y z : α) : FV α :=
  fabs (fdegrees pi (fatan atanf (pi / 2) (fdiv (.fin (sqrtf (x ^ 2 + y ^ 2))) (.fin z))))

/-! ### Concrete oracle instantiations used by the closed evaluations -/

/-- A concrete PCA collaborator used by the closed counterexamples: principal
direction (0, 0, 1) and the identity transform.  The statements that use it
do not depend on the numerical PCA output. -/
def pca_triv : PCAOracle := fun _ => ([0, 0, 1], fun r => r)

/-- A concrete deviation-angle collaborator (always 0) for the closed
counterexamples, whose statements do not depend on it. -/
def dev0 : Row → ℚ := fun _ => 0

/-- A concrete voxelization collaborator for the closed evaluations: each
point is its own voxel. -/
def vox_id : VoxOracle := fun _ _ _ _ c => (c, List.range c.length)

/-- A concrete DBSCAN collaborator for the closed evaluations: every point in
cluster 0. -/
def dbscan0 : DBSCANOracle := fun _ _ c => List.replicate c.length 0

end Dendromatics

namespace Dendromatics

/-! ## Theorems -/

unseal Rat.add Rat.mul Rat.inv Rat.sub in
/-- C1: the claimed invariant — `tree_id` is the sentinel iff the distance is
the sentinel or at least `d_max` — fails on `compute_axes_approximate`: the
clamping `dist_to_axis[dist_to_axis > d_max] = d_max` (line 454) runs before
the mask `tree_id_vector[dist_to_axis > d_max] = NO_ID` (line 465), so the
mask never fires.  Here the cloud point at (5, 0, 0) has nearest-sample
squared distance 25, far above `d_max² = 9/4`, yet its returned tree id is 7
(the axis id) instead of the sentinel 100000, and its returned distance is
clamped to `d_max`.  The pooled samples are (0,0,0), (0,0,1), (0,0,2). -/
theorem C1_clamp_precedes_noid_eval :
    (compute_axes_approximate pca_triv dev0
      [[0,0,0,0],[0,0,3,0],[5,0,0,0]] [[0,0,0,0,7],[0,0,2,0,7]]
      0 1 1 1 1 (3/2) 0 1 2 3 (-1) false).1 =
    .ok ([[7, 0, 0, 1, 0, 0, 1, 1, 0]], [0, 1, 9/4], [7, 7, 7]) ∧
    (knn_query [(0,0,0),(0,0,1),(0,0,2)] (5,0,0)).1 = some 25 ∧
    ¬ ((25 : ℚ) < (3/2) ^ 2) ∧ (7 : ℚ) ≠ sentinel := by
  exact ⟨by rfl, by decide, by decide, by decide⟩

unseal Rat.add Rat.mul Rat.inv Rat.sub in
/-- C2: with a stripe whose only cluster fails the `min_points` filter
(one point, `min_points = 1`), no axis is valid and
`compute_axes_approximate` crashes with the `ValueError` of
`np.concatenate([])` (line 449) instead of returning empty results as the
claim requires. -/
theorem C2_empty_axes_concatenate_error :
    (compute_axes_approximate pca_triv dev0
      [[0,0,0,0]] [[0,0,0,0,9]]
      0 1 1 1 1 (3/2) 0 1 2 3 (-1) false).1 = .error .valueError := by rfl

unseal Rat.add Rat.mul Rat.inv Rat.sub in
/-- C3: when the pooled samples outnumber the voxelated cloud's points, the
tag array `tree_cluster = np.zeros(voxelated_cloud.shape[0])` (line 457) is
too short: here 3 samples are pooled over a 2-point cloud, the nearest sample
of the point (0, 0, 3) has index 2, and the lookup
`tree_cluster[indexes]` (line 464) raises `IndexError` instead of returning
that sample's source tree id. -/
theorem C3_tag_array_index_error :
    (compute_axes_approximate pca_triv dev0
      [[0,0,0,0],[0,0,3,0]] [[0,0,0,0,7],[0,0,2,0,7]]
      0 1 1 1 1 (3/2) 0 1 2 3 (-1) false).1 = .error .indexError := by rfl

unseal Rat.add Rat.mul Rat.inv Rat.sub in
/-- C4 (counterexample): a stem cluster with exactly `min_points` members is
filtered out, contradicting the claim that it appears in DetectedTrees.  The
stripe's only cluster (id 3) has exactly `min_points = 2` members and passes
the vertical-extent filter (z-range 2 > 1), yet DetectedTrees is empty,
because line 96 keeps only clusters with strictly more than `min_points`
members. -/
theorem C4_exactly_min_points_excluded :
    (([[0,0,0,0,3],[1/2,0,2,0,3]] : Cloud).map (fun r => fget r (-1))).count 3 = 2 ∧
    valid_stem [[0,0,0,0,3],[1/2,0,2,0,3]] (-1) 0 1 2 1 3 = true ∧
    (compute_axes_exact pca_triv dev0 [[0,0,0,0]] [[0,0,0,0,3],[1/2,0,2,0,3]]
      0 1 1 2 (3/2) 0 1 2 3 (-1) false).1 = [] := by
  exact ⟨by decide, by decide, by decide⟩

unseal Rat.add Rat.mul Rat.inv Rat.sub in
/-- C5 (counterexample): the results are not invariant under a permutation of
the caller-supplied field layout.  The same data is presented once in the
canonical layout (X, Y, Z, Z0, id) = (0, 1, 2, 3, -1) and once permuted with
Z stored first, (X, Y, Z, Z0, id) = (2, 1, 0, 3, -1); the canonical run
detects one tree, the permuted run none, because line 134 reads
`stem_i[:, Z_field]` from the already-reordered 3-column stem array. -/
theorem C5_layout_permutation_changes_result :
    (compute_axes_exact pca_triv dev0 [[0,0,0,0]] [[0,0,0,0,3],[1/2,0,2,0,3]]
      0 1 1 1 (3/2) 0 1 2 3 (-1) false).1.length = 1 ∧
    (compute_axes_exact pca_triv dev0 [[0,0,0,0]] [[0,0,0,0,3],[2,0,1/2,0,3]]
      0 1 1 1 (3/2) 2 1 0 3 (-1) false).1.length = 0 := by
  exact ⟨by decide, by decide⟩

end Dendromatics

namespace Dendromatics

section HookLemmas

variable (pca : PCAOracle) (dev : Row → ℚ) (vox stripe : Cloud) (hrv step d_max : ℚ)
  (X Y Z Z0 tid : Int) (nvals : ℕ) (bbmin bbmax : V3)

theorem ex_step_core_eq (h1 h2 : Bool) (s1 s2 : ExState)
    (hd : s1.detected = s2.detected) (ha : s1.assign = s2.assign)
    (hp : s1.prog = s2.prog) (i : ℚ) :
    (ex_step pca dev vox stripe hrv d_max X Y Z Z0 tid nvals h1 s1 i).detected =
      (ex_step pca dev vox stripe hrv d_max X Y Z Z0 tid nvals h2 s2 i).detected ∧
    (ex_step pca dev vox stripe hrv d_max X Y Z Z0 tid nvals h1 s1 i).assign =
      (ex_step pca dev vox stripe hrv d_max X Y Z Z0 tid nvals h2 s2 i).assign ∧
    (ex_step pca dev vox stripe hrv d_max X Y Z Z0 tid nvals h1 s1 i).prog =
      (ex_step pca dev vox stripe hrv d_max X Y Z Z0 tid nvals h2 s2 i).prog := by
  by_cases hv : valid_stem stripe tid X Y Z hrv i <;>
    simp [ex_step, hv, hd, ha, hp]

theorem exact_loop_core_eq (h1 h2 : Bool) :
    ∀ (ids : List ℚ) (s1 s2 : ExState),
      s1.detected = s2.detected → s1.assign = s2.assign → s1.prog = s2.prog →
      (exact_loop pca dev vox stripe hrv d_max X Y Z Z0 tid nvals h1 ids s1).detected =
        (exact_loop pca dev vox stripe hrv d_max X Y Z Z0 tid nvals h2 ids s2).detected ∧
      (exact_loop pca dev vox stripe hrv d_max X Y Z Z0 tid nvals h1 ids s1).assign =
        (exact_loop pca dev vox stripe hrv d_max X Y Z Z0 tid nvals h2 ids s2).assign ∧
      (exact_loop pca dev vox stripe hrv d_max X Y Z Z0 tid nvals h1 ids s1).prog =
        (exact_loop pca dev vox stripe hrv d_max X Y Z Z0 tid nvals h2 ids s2).prog := by
  intro ids
  induction ids with
  | nil => intro s1 s2 hd ha hp; exact ⟨hd, ha, hp⟩
  | cons i rest ih =>
    intro s1 s2 hd ha hp
    have h := ex_step_core_eq pca dev vox stripe hrv d_max X Y Z Z0 tid nvals h1 h2 s1 s2 hd ha hp i
    exact ih _ _ h.1 h.2.1 h.2.2

theorem exact_loop_trace_of_false :
    ∀ (ids : List ℚ) (s : ExState),
      (exact_loop pca dev vox stripe hrv d_max X Y Z Z0 tid nvals false ids s).trace = s.trace := by
  intro ids
  induction ids with
  | nil => intro s; rfl
  | cons i rest ih =>
    intro s
    rw [show exact_loop pca dev vox stripe hrv d_max X Y Z Z0 tid nvals false (i :: rest) s =
          exact_loop pca dev vox stripe hrv d_max X Y Z Z0 tid nvals false rest
            (ex_step pca dev vox stripe hrv d_max X Y Z Z0 tid nvals false s i) from rfl, ih]
    by_cases hv : valid_stem stripe tid X Y Z hrv i <;> simp [ex_step, hv]

theorem ap_step_core_eq (h1 h2 : Bool) (s1 s2 : ApState)
    (hd : s1.detected = s2.detected) (hx : s1.axes = s2.axes)
    (hv' : s1.vids = s2.vids) (hp : s1.prog = s2.prog) (i : ℚ) :
    (ap_step pca dev stripe hrv step X Y Z Z0 tid bbmin bbmax nvals h1 s1 i).detected =
      (ap_step pca dev stripe hrv step X Y Z Z0 tid bbmin bbmax nvals h2 s2 i).detected ∧
    (ap_step pca dev stripe hrv step X Y Z Z0 tid bbmin bbmax nvals h1 s1 i).axes =
      (ap_step pca dev stripe hrv step X Y Z Z0 tid bbmin bbmax nvals h2 s2 i).axes ∧
    (ap_step pca dev stripe hrv step X Y Z Z0 tid bbmin bbmax nvals h1 s1 i).vids =
      (ap_step pca dev stripe hrv step X Y Z Z0 tid bbmin bbmax nvals h2 s2 i).vids ∧
    (ap_step pca dev stripe hrv step X Y Z Z0 tid bbmin bbmax nvals h1 s1 i).prog =
      (ap_step pca dev stripe hrv step X Y Z Z0 tid bbmin bbmax nvals h2 s2 i).prog := by
  by_cases hvs : valid_stem stripe tid X Y Z hrv i <;>
    simp [ap_step, hvs, hd, hx, hv', hp]

theorem approx_loop_core_eq (h1 h2 : Bool) :
    ∀ (ids : List ℚ) (s1 s2 : ApState),
      s1.detected = s2.detected → s1.axes = s2.axes → s1.vids = s2.vids →
      s1.prog = s2.prog →
      (approx_loop pca dev stripe hrv step X Y Z Z0 tid bbmin bbmax nvals h1 ids s1).detected =
        (approx_loop pca dev stripe hrv step X Y Z Z0 tid bbmin bbmax nvals h2 ids s2).detected ∧
      (approx_loop pca dev stripe hrv step X Y Z Z0 tid bbmin bbmax nvals h1 ids s1).axes =
        (approx_loop pca dev stripe hrv step X Y Z Z0 tid bbmin bbmax nvals h2 ids s2).axes ∧
      (approx_loop pca dev stripe hrv step X Y Z Z0 tid bbmin bbmax nvals h1 ids s1).vids =
        (approx_loop pca dev stripe hrv step X Y Z Z0 tid bbmin bbmax nvals h2 ids s2).vids ∧
      (approx_loop pca dev stripe hrv step X Y Z Z0 tid bbmin bbmax nvals h1 ids s1).prog =
        (approx_loop pca dev stripe hrv step X Y Z Z0 tid bbmin bbmax nvals h2 ids s2).prog := by
  intro ids
  induction ids with
  | nil => intro s1 s2 hd hx hv' hp; exact ⟨hd, hx, hv', hp⟩
  | cons i rest ih =>
    intro s1 s2 hd hx hv' hp
    have h := ap_step_core_eq pca dev stripe hrv step X Y Z Z0 tid nvals bbmin bbmax h1 h2 s1 s2 hd hx hv' hp i
    exact ih _ _ h.1 h.2.1 h.2.2.1 h.2.2.2

theorem approx_loop_trace_of_false :
    ∀ (ids : List ℚ) (s : ApState),
      (approx_loop pca dev stripe hrv step X Y Z Z0 tid bbmin bbmax nvals false ids s).trace = s.trace := by
  intro ids
  induction ids with
  | nil => intro s; rfl
  | cons i rest ih =>
    intro s
    rw [show approx_loop pca dev stripe hrv step X Y Z Z0 tid bbmin bbmax nvals false (i :: rest) s =
          approx_loop pca dev stripe hrv step X Y Z Z0 tid bbmin bbmax nvals false rest
            (ap_step pca dev stripe hrv step X Y Z Z0 tid bbmin bbmax nvals false s i) from rfl, ih]
    by_cases hv : valid_stem stripe tid X Y Z hrv i <;> simp [ap_step, hv]

end HookLemmas

/-- C9: the progress callback does not affect results.  For every input,
`compute_axes_exact` returns the same detected trees, distance array and
tree-id array whether the hook is supplied (`true`) or absent (`false`), and
so does `compute_axes_approximate` for its whole `Except` result; when the
hook is absent, the recorded trace of hook calls is empty — no call is
attempted. -/
theorem C9_progress_hook_no_effect (pca : PCAOracle) (dev : Row → ℚ)
    (vox stripe : Cloud) (lo hi hr : ℚ) (minp : ℕ) (vres d_max : ℚ)
    (X Y Z Z0 tid : Int) :
    ((compute_axes_exact pca dev vox stripe lo hi hr minp d_max X Y Z Z0 tid true).1 =
       (compute_axes_exact pca dev vox stripe lo hi hr minp d_max X Y Z Z0 tid false).1 ∧
     (compute_axes_exact pca dev vox stripe lo hi hr minp d_max X Y Z Z0 tid true).2.1 =
       (compute_axes_exact pca dev vox stripe lo hi hr minp d_max X Y Z Z0 tid false).2.1 ∧
     (compute_axes_exact pca dev vox stripe lo hi hr minp d_max X Y Z Z0 tid true).2.2.1 =
       (compute_axes_exact pca dev vox stripe lo hi hr minp d_max X Y Z Z0 tid false).2.2.1) ∧
    (compute_axes_exact pca dev vox stripe lo hi hr minp d_max X Y Z Z0 tid false).2.2.2 = [] ∧
    (compute_axes_approximate pca dev vox stripe lo hi hr minp vres d_max X Y Z Z0 tid true).1 =
      (compute_axes_approximate pca dev vox stripe lo hi hr minp vres d_max X Y Z Z0 tid false).1 ∧
    (compute_axes_approximate pca dev vox stripe lo hi hr minp vres d_max X Y Z Z0 tid false).2 = [] := by
  constructor
  · have h := exact_loop_core_eq pca dev vox stripe ((hi - lo) * hr) d_max X Y Z Z0 tid
      (filt_ids (stripe.map (fun r => fget r tid)) minp).length true false
      (filt_ids (stripe.map (fun r => fget r tid)) minp)
      (ex_init vox true (filt_ids (stripe.map (fun r => fget r tid)) minp).length)
      (ex_init vox false (filt_ids (stripe.map (fun r => fget r tid)) minp).length)
      rfl rfl rfl
    refine ⟨?_, ?_, ?_⟩ <;> simp [compute_axes_exact, h.1, h.2.1]
  refine ⟨?_, ?_, ?_⟩
  · simp [compute_axes_exact, exact_loop_trace_of_false, ex_init]
  · have h := approx_loop_core_eq pca dev stripe ((hi - lo) * hr) vres X Y Z Z0 tid
      (filt_ids (stripe.map (fun r => fget r tid)) minp).length
      (v3list_min (cloud_xyz vox X Y Z)) (v3list_max (cloud_xyz vox X Y Z))
      true false
      (filt_ids (stripe.map (fun r => fget r tid)) minp)
      (ap_init true (filt_ids (stripe.map (fun r => fget r tid)) minp).length)
      (ap_init false (filt_ids (stripe.map (fun r => fget r tid)) minp).length)
      rfl rfl rfl rfl
    simp only [compute_axes_approximate]
    rw [h.1, h.2.1, h.2.2.1]
  · simp [compute_axes_approximate, approx_loop_trace_of_false, ap_init]

end Dendromatics

namespace Dendromatics

theorem fget_append_pair (l : Row) (a b : ℚ) : fget (l ++ [a, b]) (-1) = b := by
  simp only [fget]
  rw [if_neg (by norm_num)]
  have h1 : (l ++ [a, b]).length - (-1 : Int).natAbs = l.length + 1 := by simp
  rw [h1, List.getD_append_right l [a, b] _ _ (by omega)]
  have h2 : l.length + 1 - l.length = 1 := by omega
  rw [h2]
  rfl

theorem height_row_ok_shape (rows : Cloud) (max_dev : ℚ) (drow r' : Row)
    (h : height_row rows max_dev drow = .ok r') :
    tree_selection rows (fget drow 0) ≠ [] ∧
    ∃ hp : Row, r' = hp ++ [hp.getD 2 0 - fget drow 7,
      if fget drow (-1) > max_dev then 0 else 1] := by
  cases hsel : tree_selection rows (fget drow 0) with
  | nil => rw [height_row, hsel] at h; exact absurd h (by simp)
  | cons a t =>
    rw [height_row, hsel] at h
    refine ⟨by simp [hsel], ?_⟩
    exact ⟨_, (Except.ok.injEq _ _ ▸ h.symm)⟩

theorem heights_loop_ok_shape (rows : Cloud) (max_dev : ℚ) :
    ∀ (dets hs : List Row), heights_loop rows max_dev dets = .ok hs →
      hs.length = dets.length ∧
      ∀ i, i < dets.length → height_row rows max_dev (dets.getD i []) = .ok (hs.getD i []) := by
  intro dets
  induction dets with
  | nil =>
    intro hs h
    rw [heights_loop] at h
    cases h
    refine ⟨rfl, ?_⟩
    intro i hi
    exact absurd hi (by simp)
  | cons drow rest ih =>
    intro hs h
    rw [heights_loop] at h
    cases hh : height_row rows max_dev drow with
    | error e => rw [hh] at h; exact absurd h (by simp)
    | ok r =>
      rw [hh] at h
      cases hl : heights_loop rows max_dev rest with
      | error e => rw [hl] at h; exact absurd h (by simp)
      | ok rs =>
        rw [hl] at h
        cases h
        obtain ⟨hlen, hall⟩ := ih rs hl
        refine ⟨by simp [hlen], ?_⟩
        intro i hi
        cases i with
        | zero => simpa using hh
        | succ j => exact hall j (by simpa using hi)

/-- C8: for every detected tree, the validity flag of the TreeHeight record
(its last field, source column `tree_heights[i, -1]`, lines 592–596) is 0
exactly when the tree's stored deviation angle (last field of its
detected-trees row) strictly exceeds `max_dev`, and 1 exactly when the
deviation angle is at most `max_dev` — the boundary value is valid. -/
theorem C8_validity_flag_boundary (vox_or : VoxOracle) (dbscan : DBSCANOracle)
    (vox : Cloud) (detected : List Row) (distSq tidv : List ℚ)
    (d max_dev resH : ℚ) (X Y Z : Int) (hs : List Row)
    (hok : compute_heights vox_or dbscan vox detected distSq tidv d max_dev resH X Y Z = .ok hs)
    (i : ℕ) (hi : i < detected.length) :
    (fget (hs.getD i []) (-1) = 0 ↔ max_dev < fget (detected.getD i []) (-1)) ∧
    (fget (hs.getD i []) (-1) = 1 ↔ fget (detected.getD i []) (-1) ≤ max_dev) := by
  rw [compute_heights] at hok
  obtain ⟨hlen, hall⟩ := heights_loop_ok_shape _ _ _ _ hok
  obtain ⟨-, hp, hshape⟩ := height_row_ok_shape _ _ _ _ (hall i hi)
  rw [hshape, fget_append_pair]
  by_cases hc : fget (detected.getD i []) (-1) > max_dev
  · rw [if_pos hc]
    exact ⟨iff_of_true rfl hc, iff_of_false (by norm_num) (not_le.mpr hc)⟩
  · rw [if_neg hc]
    exact ⟨iff_of_false (by norm_num) hc, iff_of_true rfl (not_lt.mp hc)⟩

unseal Rat.add Rat.mul Rat.inv Rat.sub in
/-- Witness for C8: a four-point cloud forming one surviving coarse cluster,
one detected tree with deviation 30 over `max_dev = 25`, whose height record
gets validity flag 0. -/
theorem C8_validity_flag_boundary_witness :
    compute_heights vox_id dbscan0 [[0,0,1,0],[0,0,2,0],[0,0,3,0],[0,0,5,0]]
        [[4,0,0,1,0,0,0,0,30]] [0,0,0,0] [4,4,4,4] 1 25 1 0 1 2 =
      .ok [[0,0,5,5,0]] ∧
    0 < ([[4,0,0,1,0,0,0,0,30]] : List Row).length ∧
    ((fget (([[0,0,5,5,0]] : List Row).getD 0 []) (-1) = 0 ↔
        25 < fget (([[4,0,0,1,0,0,0,0,30]] : List Row).getD 0 []) (-1)) ∧
     (fget (([[0,0,5,5,0]] : List Row).getD 0 []) (-1) = 1 ↔
        fget (([[4,0,0,1,0,0,0,0,30]] : List Row).getD 0 []) (-1) ≤ 25)) := by
  refine ⟨by rfl, by decide, ?_⟩
  exact C8_validity_flag_boundary vox_id dbscan0
    [[0,0,1,0],[0,0,2,0],[0,0,3,0],[0,0,5,0]] [[4,0,0,1,0,0,0,0,30]]
    [0,0,0,0] [4,4,4,4] 1 25 1 0 1 2 [[0,0,5,5,0]] (by rfl) 0 (by decide)

/-- C10: if some detected tree has no surviving point after the
distance-to-axis filter and the small-cluster filter, `compute_heights`
raises (the `np.argmax` of an empty selection, line 587) instead of returning
a TreeHeight record for that tree. -/
theorem C10_empty_tree_selection_errors (vox_or : VoxOracle) (dbscan : DBSCANOracle)
    (vox : Cloud) (detected : List Row) (distSq tidv : List ℚ)
    (d max_dev resH : ℚ) (X Y Z : Int)
    (h : ∃ i, i < detected.length ∧
      tree_selection (surviving_rows vox_or dbscan vox distSq tidv d resH X Y Z)
        (fget (detected.getD i []) 0) = []) :
    ∃ e, compute_heights vox_or dbscan vox detected distSq tidv d max_dev resH X Y Z = .error e := by
  cases hres : compute_heights vox_or dbscan vox detected distSq tidv d max_dev resH X Y Z with
  | error e => exact ⟨e, rfl⟩
  | ok hs =>
    exfalso
    rw [compute_heights] at hres
    obtain ⟨hlen, hall⟩ := heights_loop_ok_shape _ _ _ _ hres
    obtain ⟨i, hi, hemp⟩ := h
    obtain ⟨hne, -⟩ := height_row_ok_shape _ _ _ _ (hall i hi)
    exact hne hemp

/-- Witness for C10: an empty cloud and one detected tree — its selection is
empty and `compute_heights` errs. -/
theorem C10_empty_tree_selection_errors_witness :
    (∃ i, i < ([[5,0,0,0,0,0,0,0,0]] : List Row).length ∧
      tree_selection (surviving_rows vox_id dbscan0 [] [] [] 1 1 0 1 2)
        (fget (([[5,0,0,0,0,0,0,0,0]] : List Row).getD i []) 0) = []) ∧
    ∃ e, compute_heights vox_id dbscan0 [] [[5,0,0,0,0,0,0,0,0]] [] [] 1 1 1 0 1 2 = .error e := by
  refine ⟨⟨0, by decide, by rfl⟩, ?_⟩
  exact C10_empty_tree_selection_errors vox_id dbscan0 [] _ [] [] 1 1 1 0 1 2
    ⟨0, by decide, by rfl⟩

end Dendromatics

namespace Dendromatics

theorem mem_insertQ (a b : ℚ) : ∀ l : List ℚ, a ∈ insertQ b l ↔ a = b ∨ a ∈ l := by
  intro l
  induction l with
  | nil => simp [insertQ]
  | cons c t ih =>
    by_cases h : b ≤ c
    · simp [insertQ, h]
    · simp [insertQ, h, ih]
      tauto

theorem mem_sortQ (a : ℚ) : ∀ l : List ℚ, a ∈ sortQ l ↔ a ∈ l := by
  intro l
  induction l with
  | nil => simp [sortQ]
  | cons b t ih =>
    rw [show sortQ (b :: t) = insertQ b (sortQ t) from rfl, mem_insertQ, ih]
    simp

theorem mem_filt_ids (vals : List ℚ) (minp : ℕ) (i : ℚ) :
    i ∈ filt_ids vals minp ↔ i ∈ vals ∧ minp < vals.count i := by
  simp [filt_ids, uniqueSorted, mem_sortQ, List.mem_dedup]

theorem tree_row_head (pca : PCAOracle) (dev : Row → ℚ) (stripe : Cloud)
    (tid X Y Z Z0 : Int) (i : ℚ) :
    (tree_row pca dev stripe tid X Y Z Z0 i).headD 0 = i := rfl

theorem exact_loop_detected (pca : PCAOracle) (dev : Row → ℚ) (vox stripe : Cloud)
    (hrv d_max : ℚ) (X Y Z Z0 tid : Int) (nvals : ℕ) (hook : Bool) :
    ∀ (ids : List ℚ) (s : ExState),
      (exact_loop pca dev vox stripe hrv d_max X Y Z Z0 tid nvals hook ids s).detected =
        s.detected ++ (ids.filter (fun i => valid_stem stripe tid X Y Z hrv i)).map
          (tree_row pca dev stripe tid X Y Z Z0) := by
  intro ids
  induction ids with
  | nil => intro s; simp [exact_loop]
  | cons i rest ih =>
    intro s
    rw [show exact_loop pca dev vox stripe hrv d_max X Y Z Z0 tid nvals hook (i :: rest) s =
          exact_loop pca dev vox stripe hrv d_max X Y Z Z0 tid nvals hook rest
            (ex_step pca dev vox stripe hrv d_max X Y Z Z0 tid nvals hook s i) from rfl, ih]
    by_cases hv : valid_stem stripe tid X Y Z hrv i <;> simp [ex_step, hv]

/-- C4 (amended): the size filter is strict.  (a) Every row of DetectedTrees
comes from a cluster with strictly more than `min_points` members — so a
cluster with at most `min_points` members (in particular one with fewer than
`min_points`) never appears; (b) a cluster with strictly more than
`min_points` members that passes the vertical-extent filter appears in
DetectedTrees with its id in the leading field.  The only side condition is
the PCA contract of spec §6: the fitted first principal component is a unit
vector, so it has a nonzero entry, which keeps the descriptor row out of the
final all-zero-row deletion (line 179) — this holds for every cluster id,
including 0. -/
theorem C4_size_filter_strict (pca : PCAOracle) (dev : Row → ℚ) (vox stripe : Cloud)
    (lo hi hr : ℚ) (minp : ℕ) (d_max : ℚ) (X Y Z Z0 tid : Int) (hook : Bool) :
    (∀ r ∈ (compute_axes_exact pca dev vox stripe lo hi hr minp d_max X Y Z Z0 tid hook).1,
        minp < (stripe.map (fun r' => fget r' tid)).count (r.headD 0)) ∧
    (∀ i : ℚ, i ∈ stripe.map (fun r => fget r tid) →
        minp < (stripe.map (fun r => fget r tid)).count i →
        valid_stem stripe tid X Y Z ((hi - lo) * hr) i = true →
        (∃ q ∈ (pca (stem_xyz stripe tid i X Y Z)).1, q ≠ 0) →
        ∃ r ∈ (compute_axes_exact pca dev vox stripe lo hi hr minp d_max X Y Z Z0 tid hook).1,
          r.headD 0 = i) := by
  have hdet : (compute_axes_exact pca dev vox stripe lo hi hr minp d_max X Y Z Z0 tid hook).1 =
      drop_zero_rows
        (((filt_ids (stripe.map (fun r => fget r tid)) minp).filter
            (fun i => valid_stem stripe tid X Y Z ((hi - lo) * hr) i)).map
          (tree_row pca dev stripe tid X Y Z Z0)) := by
    simp only [compute_axes_exact]
    rw [exact_loop_detected]
    rfl
  constructor
  · intro r hr'
    rw [hdet] at hr'
    have hr2 : r ∈ ((filt_ids (stripe.map (fun r' => fget r' tid)) minp).filter
        (fun i => valid_stem stripe tid X Y Z ((hi - lo) * hr) i)).map
          (tree_row pca dev stripe tid X Y Z Z0) := List.mem_of_mem_filter hr'
    obtain ⟨i, hi, hri⟩ := List.mem_map.mp hr2
    have him : i ∈ filt_ids (stripe.map (fun r' => fget r' tid)) minp :=
      List.mem_of_mem_filter hi
    rw [← hri, tree_row_head]
    exact ((mem_filt_ids _ _ _).mp him).2
  · intro i hmem hcount hvalid hdir
    obtain ⟨q, hq, hq0⟩ := hdir
    have him : i ∈ filt_ids (stripe.map (fun r => fget r tid)) minp :=
      (mem_filt_ids _ _ _).mpr ⟨hmem, hcount⟩
    refine ⟨tree_row pca dev stripe tid X Y Z Z0 i, ?_, tree_row_head _ _ _ _ _ _ _ _ _⟩
    rw [hdet]
    rw [drop_zero_rows, List.mem_filter]
    constructor
    · exact List.mem_map_of_mem _ (List.mem_filter.mpr ⟨him, hvalid⟩)
    · have hqrow : q ∈ tree_row pca dev stripe tid X Y Z Z0 i := by
        have hh : (tree_row pca dev stripe tid X Y Z Z0 i) =
            i :: ((pca (stem_xyz stripe tid i X Y Z)).1 ++
              mean_cols (stem_xyz stripe tid i X Y Z) ++
              [diff_z_z0 stripe tid i Z Z0,
               dev (pca (stem_xyz stripe tid i X Y Z)).1]) := rfl
        rw [hh]
        exact List.mem_cons_of_mem _ (List.mem_append_left _ (List.mem_append_left _ hq))
      have hfalse : (tree_row pca dev stripe tid X Y Z Z0 i).all (fun x => x == 0) = false := by
        rw [Bool.eq_false_iff]
        intro hall
        have hz := List.all_eq_true.mp hall q hqrow
        rw [beq_iff_eq] at hz
        exact hq0 hz
      simp [hfalse]

unseal Rat.add Rat.mul Rat.inv Rat.sub in
/-- Witness for C4 (amended): a 2-member cluster with `min_points = 1` passes
the strict size filter and the vertical-extent filter, its fitted direction
has a nonzero entry, and it appears in DetectedTrees. -/
theorem C4_size_filter_strict_witness :
    (3 : ℚ) ∈ (([[0,0,0,0,3],[1/2,0,2,0,3]] : Cloud).map (fun r => fget r (-1))) ∧
    1 < (([[0,0,0,0,3],[1/2,0,2,0,3]] : Cloud).map (fun r => fget r (-1))).count 3 ∧
    valid_stem [[0,0,0,0,3],[1/2,0,2,0,3]] (-1) 0 1 2 ((1 - 0) * 1) 3 = true ∧
    (∃ q ∈ (pca_triv (stem_xyz [[0,0,0,0,3],[1/2,0,2,0,3]] (-1) 3 0 1 2)).1, q ≠ 0) ∧
    ∃ r ∈ (compute_axes_exact pca_triv dev0 [[0,0,0,0]] [[0,0,0,0,3],[1/2,0,2,0,3]]
        0 1 1 1 (3/2) 0 1 2 3 (-1) false).1, r.headD 0 = 3 := by
  refine ⟨by decide, by decide, by decide, by decide, ?_⟩
  exact (C4_size_filter_strict pca_triv dev0 [[0,0,0,0]] [[0,0,0,0,3],[1/2,0,2,0,3]]
    0 1 1 1 (3/2) 0 1 2 3 (-1) false).2 3 (by decide) (by decide) (by decide) (by decide)

end Dendromatics

namespace Dendromatics

theorem filter_map_congr {α β : Type} (p1 p2 : α → Bool) (f1 f2 : α → β) :
    ∀ (l1 l2 : List α), l1.map p1 = l2.map p2 → l1.map f1 = l2.map f2 →
      (l1.filter p1).map f1 = (l2.filter p2).map f2 := by
  intro l1
  induction l1 with
  | nil =>
    intro l2 hp _
    have : l2 = [] := by
      cases l2 with
      | nil => rfl
      | cons b t => exact absurd hp (by simp)
    subst this
    rfl
  | cons a t ih =>
    intro l2 hp hf
    cases l2 with
    | nil => exact absurd hp (by simp)
    | cons b t2 =>
      simp only [List.map_cons, List.cons.injEq] at hp hf
      rw [List.filter_cons, List.filter_cons, ← hp.1]
      by_cases hpa : p1 a
      · simp only [hpa, if_pos]
        rw [List.map_cons, List.map_cons, hf.1, ih t2 hp.2 hf.2]
      · simp only [hpa, if_neg, Bool.false_eq_true, ite_false]
        exact ih t2 hp.2 hf.2

theorem map_comp_congr {α β γ : Type} (g : β → γ) {l1 l2 : List α} {f1 f2 : α → β}
    (h : l1.map f1 = l2.map f2) :
    l1.map (fun a => g (f1 a)) = l2.map (fun a => g (f2 a)) := by
  have h1 : l1.map (fun a => g (f1 a)) = (l1.map f1).map g := by
    rw [List.map_map]; rfl
  have h2 : l2.map (fun a => g (f2 a)) = (l2.map f2).map g := by
    rw [List.map_map]; rfl
  rw [h1, h2, h]

section LayoutCongruence

variable (pca : PCAOracle) (dev : Row → ℚ) (vox1 vox2 stripe1 stripe2 : Cloud)
  (X1 Y1 Z1 Z01 tid1 X2 Y2 Z2 Z02 tid2 : Int)

theorem stem_xyz_congr
    (hTid : stripe1.map (fun r => fget r tid1) = stripe2.map (fun r => fget r tid2))
    (hXYZ : stripe1.map (fun r => [fget r X1, fget r Y1, fget r Z1]) =
      stripe2.map (fun r => [fget r X2, fget r Y2, fget r Z2])) (i : ℚ) :
    stem_xyz stripe1 tid1 i X1 Y1 Z1 = stem_xyz stripe2 tid2 i X2 Y2 Z2 :=
  filter_map_congr _ _ _ _ _ _
    (map_comp_congr (fun v => decide (v = i)) hTid) hXYZ

theorem diff_z_z0_congr
    (hTid : stripe1.map (fun r => fget r tid1) = stripe2.map (fun r => fget r tid2))
    (hZcol : stripe1.map (fun r => fget r Z1) = stripe2.map (fun r => fget r Z2))
    (hZ0col : stripe1.map (fun r => fget r Z01) = stripe2.map (fun r => fget r Z02))
    (i : ℚ) :
    diff_z_z0 stripe1 tid1 i Z1 Z01 = diff_z_z0 stripe2 tid2 i Z2 Z02 := by
  have h1 := filter_map_congr (fun r => decide (fget r tid1 = i))
    (fun r => decide (fget r tid2 = i)) (fun r => fget r Z1) (fun r => fget r Z2)
    stripe1 stripe2 (map_comp_congr (fun v => decide (v = i)) hTid) hZcol
  have h2 := filter_map_congr (fun r => decide (fget r tid1 = i))
    (fun r => decide (fget r tid2 = i)) (fun r => fget r Z01) (fun r => fget r Z02)
    stripe1 stripe2 (map_comp_congr (fun v => decide (v = i)) hTid) hZ0col
  rw [diff_z_z0, diff_z_z0, stem_rows, stem_rows]
  rw [show (stripe1.filter (fun r => decide (fget r tid1 = i))).map (fun r => fget r Z1) =
        (stripe2.filter (fun r => decide (fget r tid2 = i))).map (fun r => fget r Z2) from h1,
      show (stripe1.filter (fun r => decide (fget r tid1 = i))).map (fun r => fget r Z01) =
        (stripe2.filter (fun r => decide (fget r tid2 = i))).map (fun r => fget r Z02) from h2]

theorem adsq_map_congr
    (hTid : stripe1.map (fun r => fget r tid1) = stripe2.map (fun r => fget r tid2))
    (hXYZ : stripe1.map (fun r => [fget r X1, fget r Y1, fget r Z1]) =
      stripe2.map (fun r => [fget r X2, fget r Y2, fget r Z2]))
    (hVox : vox1.map (fun r => [fget r X1, fget r Y1, fget r Z1]) =
      vox2.map (fun r => [fget r X2, fget r Y2, fget r Z2])) (i : ℚ) :
    vox1.map (axis_dist_sq pca stripe1 tid1 X1 Y1 Z1 i) =
      vox2.map (axis_dist_sq pca stripe2 tid2 X2 Y2 Z2 i) := by
  have hstem := stem_xyz_congr stripe1 stripe2 X1 Y1 Z1 tid1 X2 Y2 Z2 tid2 hTid hXYZ i
  have hg : (fun v : Row =>
      ((pca (stem_xyz stripe1 tid1 i X1 Y1 Z1)).2 v).getD 1 0 ^ 2 +
        ((pca (stem_xyz stripe1 tid1 i X1 Y1 Z1)).2 v).getD 2 0 ^ 2) =
      (fun v : Row =>
      ((pca (stem_xyz stripe2 tid2 i X2 Y2 Z2)).2 v).getD 1 0 ^ 2 +
        ((pca (stem_xyz stripe2 tid2 i X2 Y2 Z2)).2 v).getD 2 0 ^ 2) := by
    rw [hstem]
  have hcomp := map_comp_congr
    (fun v : Row =>
      ((pca (stem_xyz stripe1 tid1 i X1 Y1 Z1)).2 v).getD 1 0 ^ 2 +
        ((pca (stem_xyz stripe1 tid1 i X1 Y1 Z1)).2 v).getD 2 0 ^ 2) hVox
  have hfinal : vox2.map (fun a =>
      (fun v : Row =>
        ((pca (stem_xyz stripe1 tid1 i X1 Y1 Z1)).2 v).getD 1 0 ^ 2 +
          ((pca (stem_xyz stripe1 tid1 i X1 Y1 Z1)).2 v).getD 2 0 ^ 2)
        [fget a X2, fget a Y2, fget a Z2]) = vox2.map (fun a =>
      (fun v : Row =>
        ((pca (stem_xyz stripe2 tid2 i X2 Y2 Z2)).2 v).getD 1 0 ^ 2 +
          ((pca (stem_xyz stripe2 tid2 i X2 Y2 Z2)).2 v).getD 2 0 ^ 2)
        [fget a X2, fget a Y2, fget a Z2]) := by
    rw [hg]
  exact hcomp.trans hfinal

end LayoutCongruence

/-- C5 (amended): `compute_axes_exact` reads its inputs only through the
caller-supplied field indices, except that the vertical-extent filter indexes
the reordered 3-column stem array with `Z_field` (line 134).  Hence two
presentations of the same data whose per-field access values agree
(per-column maps equal) and whose `Z_field` index coincides (canonically 2)
yield identical DetectedTrees, assignment arrays and traces; the claimed
invariance under arbitrary permutations fails
(`C5_layout_permutation_changes_result`). -/
theorem C5_layout_congruence (pca : PCAOracle) (dev : Row → ℚ)
    (vox1 vox2 stripe1 stripe2 : Cloud) (lo hi hr : ℚ) (minp : ℕ) (d_max : ℚ)
    (X1 Y1 Z1 Z01 tid1 X2 Y2 Z2 Z02 tid2 : Int) (hook : Bool)
    (hZf : Z1 = Z2)
    (hTid : stripe1.map (fun r => fget r tid1) = stripe2.map (fun r => fget r tid2))
    (hXYZ : stripe1.map (fun r => [fget r X1, fget r Y1, fget r Z1]) =
      stripe2.map (fun r => [fget r X2, fget r Y2, fget r Z2]))
    (hZcol : stripe1.map (fun r => fget r Z1) = stripe2.map (fun r => fget r Z2))
    (hZ0col : stripe1.map (fun r => fget r Z01) = stripe2.map (fun r => fget r Z02))
    (hVox : vox1.map (fun r => [fget r X1, fget r Y1, fget r Z1]) =
      vox2.map (fun r => [fget r X2, fget r Y2, fget r Z2])) :
    compute_axes_exact pca dev vox1 stripe1 lo hi hr minp d_max X1 Y1 Z1 Z01 tid1 hook =
      compute_axes_exact pca dev vox2 stripe2 lo hi hr minp d_max X2 Y2 Z2 Z02 tid2 hook := by
  subst hZf
  have hstem : ∀ i, stem_xyz stripe1 tid1 i X1 Y1 Z1 = stem_xyz stripe2 tid2 i X2 Y2 Z1 :=
    stem_xyz_congr stripe1 stripe2 X1 Y1 Z1 tid1 X2 Y2 Z1 tid2 hTid hXYZ
  have hvalid : ∀ hrv i, valid_stem stripe1 tid1 X1 Y1 Z1 hrv i =
      valid_stem stripe2 tid2 X2 Y2 Z1 hrv i := by
    intro hrv i
    rw [valid_stem, valid_stem, hstem]
  have hrow : ∀ i, tree_row pca dev stripe1 tid1 X1 Y1 Z1 Z01 i =
      tree_row pca dev stripe2 tid2 X2 Y2 Z1 Z02 i := by
    intro i
    rw [tree_row, tree_row, hstem,
      diff_z_z0_congr stripe1 stripe2 Z1 Z01 tid1 Z1 Z02 tid2 hTid hZcol hZ0col]
  have hlenv : vox1.length = vox2.length := by
    have := congrArg List.length hVox
    simpa using this
  have hstep : ∀ nvals (s : ExState) (i : ℚ),
      ex_step pca dev vox1 stripe1 ((hi - lo) * hr) d_max X1 Y1 Z1 Z01 tid1 nvals hook s i =
        ex_step pca dev vox2 stripe2 ((hi - lo) * hr) d_max X2 Y2 Z1 Z02 tid2 nvals hook s i := by
    intro nvals s i
    by_cases hv : valid_stem stripe1 tid1 X1 Y1 Z1 ((hi - lo) * hr) i
    · have hv2 : valid_stem stripe2 tid2 X2 Y2 Z1 ((hi - lo) * hr) i := by
        rw [← hvalid]; exact hv
      rw [ex_step, ex_step, if_pos hv, if_pos hv2, hrow,
        adsq_map_congr pca vox1 vox2 stripe1 stripe2 X1 Y1 Z1 tid1 X2 Y2 Z1 tid2
          hTid hXYZ hVox i]
    · have hv2 : ¬ valid_stem stripe2 tid2 X2 Y2 Z1 ((hi - lo) * hr) i := by
        rw [← hvalid]; exact hv
      rw [ex_step, ex_step, if_neg hv, if_neg hv2]
  have hids : filt_ids (stripe1.map (fun r => fget r tid1)) minp =
      filt_ids (stripe2.map (fun r => fget r tid2)) minp := by rw [hTid]
  have hloop : ∀ (n : ℕ) (ids : List ℚ) (s : ExState),
      exact_loop pca dev vox1 stripe1 ((hi - lo) * hr) d_max X1 Y1 Z1 Z01 tid1
        n hook ids s =
      exact_loop pca dev vox2 stripe2 ((hi - lo) * hr) d_max X2 Y2 Z1 Z02 tid2
        n hook ids s := by
    intro n ids s
    rw [exact_loop, exact_loop]
    exact List.foldl_ext _ _ s (fun s' i _ => hstep n s' i)
  have hinit : ex_init vox2 hook
        (filt_ids (stripe1.map (fun r => fget r tid1)) minp).length =
      ex_init vox1 hook (filt_ids (stripe1.map (fun r => fget r tid1)) minp).length := by
    rw [ex_init, ex_init, hlenv]
  simp only [compute_axes_exact]
  rw [← hids, hinit, ← hloop]

unseal Rat.add Rat.mul Rat.inv Rat.sub in
/-- Witness for C5 (amended): the same data in the canonical layout
(0, 1, 2, 3, -1) and with the X and Y columns swapped, (1, 0, 2, 3, -1) —
`Z_field` staying 2 — gives identical outputs. -/
theorem C5_layout_congruence_witness :
    ((2 : Int) = 2) ∧
    (([[0,0,0,0,3],[1/2,0,2,0,3]] : Cloud).map (fun r => fget r (-1)) =
      ([[0,0,0,0,3],[0,1/2,2,0,3]] : Cloud).map (fun r => fget r (-1))) ∧
    (([[0,0,0,0,3],[1/2,0,2,0,3]] : Cloud).map (fun r => [fget r 0, fget r 1, fget r 2]) =
      ([[0,0,0,0,3],[0,1/2,2,0,3]] : Cloud).map (fun r => [fget r 1, fget r 0, fget r 2])) ∧
    (([[0,0,0,0,3],[1/2,0,2,0,3]] : Cloud).map (fun r => fget r 2) =
      ([[0,0,0,0,3],[0,1/2,2,0,3]] : Cloud).map (fun r => fget r 2)) ∧
    (([[0,0,0,0,3],[1/2,0,2,0,3]] : Cloud).map (fun r => fget r 3) =
      ([[0,0,0,0,3],[0,1/2,2,0,3]] : Cloud).map (fun r => fget r 3)) ∧
    (([[1,2,3,0]] : Cloud).map (fun r => [fget r 0, fget r 1, fget r 2]) =
      ([[2,1,3,0]] : Cloud).map (fun r => [fget r 1, fget r 0, fget r 2])) ∧
    compute_axes_exact pca_triv dev0 [[1,2,3,0]] [[0,0,0,0,3],[1/2,0,2,0,3]]
        0 1 1 1 (3/2) 0 1 2 3 (-1) false =
      compute_axes_exact pca_triv dev0 [[2,1,3,0]] [[0,0,0,0,3],[0,1/2,2,0,3]]
        0 1 1 1 (3/2) 1 0 2 3 (-1) false := by
  refine ⟨rfl, by decide, by decide, by decide, by decide, by decide, ?_⟩
  exact C5_layout_congruence pca_triv dev0 [[1,2,3,0]] [[2,1,3,0]]
    [[0,0,0,0,3],[1/2,0,2,0,3]] [[0,0,0,0,3],[0,1/2,2,0,3]]
    0 1 1 1 (3/2) 0 1 2 3 (-1) 1 0 2 3 (-1) false
    rfl (by decide) (by decide) (by decide) (by decide) (by decide)

end Dendromatics

namespace Dendromatics

theorem getD_map_lt {α β : Type} (f : α → β) :
    ∀ (l : List α) (j : ℕ), j < l.length → ∀ (d : β) (d0 : α),
      (l.map f).getD j d = f (l.getD j d0) := by
  intro l
  induction l with
  | nil => intro j hj; exact absurd hj (by simp)
  | cons a t ih =>
    intro j hj d d0
    cases j with
    | zero => rfl
    | succ k => exact ih k (by simpa using hj) d d0

theorem getD_zipWith_lt {α β γ : Type} (f : α → β → γ) :
    ∀ (l1 : List α) (l2 : List β) (j : ℕ), j < l1.length → j < l2.length →
      ∀ (d : γ) (d1 : α) (d2 : β),
        (List.zipWith f l1 l2).getD j d = f (l1.getD j d1) (l2.getD j d2) := by
  intro l1
  induction l1 with
  | nil => intro l2 j hj; exact absurd hj (by simp)
  | cons a t ih =>
    intro l2 j hj1 hj2 d d1 d2
    cases l2 with
    | nil => exact absurd hj2 (by simp)
    | cons b t2 =>
      cases j with
      | zero => rfl
      | succ k => exact ih t2 k (by simpa using hj1) (by simpa using hj2) d d1 d2

theorem getD_replicate_lt {α : Type} (a d : α) :
    ∀ (n j : ℕ), j < n → (List.replicate n a).getD j d = a := by
  intro n
  induction n with
  | zero => intro j hj; exact absurd hj (by omega)
  | succ m ih =>
    intro j hj
    cases j with
    | zero => rfl
    | succ k => exact ih k (by omega)

theorem foldl_min_le_init : ∀ (l : List ℚ) (a : ℚ), l.foldl min a ≤ a := by
  intro l
  induction l with
  | nil => intro a; exact le_refl a
  | cons x t ih =>
    intro a
    exact le_trans (ih (min a x)) (min_le_left a x)

theorem foldl_min_le_mem : ∀ (l : List ℚ) (a x : ℚ), x ∈ l → l.foldl min a ≤ x := by
  intro l
  induction l with
  | nil => intro a x hx; exact absurd hx (by simp)
  | cons y t ih =>
    intro a x hx
    rcases List.mem_cons.mp hx with h | h
    · subst h
      exact le_trans (foldl_min_le_init t (min a x)) (min_le_right a x)
    · exact ih (min a y) x h

theorem le_foldl_min : ∀ (l : List ℚ) (a c : ℚ), c ≤ a → (∀ x ∈ l, c ≤ x) →
    c ≤ l.foldl min a := by
  intro l
  induction l with
  | nil => intro a c hc _; exact hc
  | cons y t ih =>
    intro a c hc hall
    exact ih (min a y) c (le_min hc (hall y (by simp))) (fun x hx => hall x (by simp [hx]))

theorem foldl_min_cases : ∀ (l : List ℚ) (a : ℚ), l.foldl min a = a ∨ l.foldl min a ∈ l := by
  intro l
  induction l with
  | nil => intro a; exact Or.inl rfl
  | cons y t ih =>
    intro a
    rcases ih (min a y) with h | h
    · rcases min_cases a y with ⟨hm, -⟩ | ⟨hm, -⟩
      · exact Or.inl (by rw [List.foldl_cons, h, hm])
      · exact Or.inr (by rw [List.foldl_cons, h, hm]; simp)
    · exact Or.inr (by simp [h])

theorem foldl_min_perm {l1 l2 : List ℚ} (h : l1.Perm l2) :
    ∀ a : ℚ, l1.foldl min a = l2.foldl min a := by
  induction h with
  | nil => intro a; rfl
  | cons x h ih => intro a; simp only [List.foldl_cons]; exact ih _
  | swap x y l => intro a; simp only [List.foldl_cons]; rw [min_right_comm]
  | trans h1 h2 ih1 ih2 => intro a; rw [ih1 a, ih2 a]

theorem assignFold_fst_filter (d_max : ℚ) :
    ∀ (cands : List (ℚ × ℚ)) (init : ℚ × ℚ),
      (assignFold d_max init cands).1 =
        ((cands.filter (fun c => decide (c.2 < d_max ^ 2))).map Prod.snd).foldl min init.1 := by
  intro cands
  induction cands with
  | nil => intro init; rfl
  | cons c cs ih =>
    intro init
    rw [show assignFold d_max init (c :: cs) =
          assignFold d_max (assign_step d_max init c) cs from rfl, ih]
    by_cases h1 : c.2 < d_max ^ 2
    · have hfc : (c :: cs).filter (fun x => decide (x.2 < d_max ^ 2)) =
          c :: cs.filter (fun x => decide (x.2 < d_max ^ 2)) := by
        simp [List.filter_cons, h1]
      rw [hfc, List.map_cons, List.foldl_cons]
      by_cases h2 : c.2 < init.1
      · rw [show assign_step d_max init c = (c.2, c.1) from by
            rw [assign_step]; exact if_pos ⟨h1, h2⟩,
          min_eq_right (le_of_lt h2)]
      · rw [show assign_step d_max init c = init from by
            rw [assign_step]; exact if_neg (by tauto),
          min_eq_left (le_of_not_lt h2)]
    · have hfc : (c :: cs).filter (fun x => decide (x.2 < d_max ^ 2)) =
          cs.filter (fun x => decide (x.2 < d_max ^ 2)) := by
        simp [List.filter_cons, h1]
      rw [hfc, show assign_step d_max init c = init from by
        rw [assign_step]; exact if_neg (by tauto)]

theorem assignFold_result (d_max : ℚ) :
    ∀ (cands : List (ℚ × ℚ)) (init : ℚ × ℚ),
      assignFold d_max init cands = init ∨
        ∃ c ∈ cands, assignFold d_max init cands = (c.2, c.1) ∧ c.2 < d_max ^ 2 := by
  intro cands
  induction cands with
  | nil => intro init; exact Or.inl rfl
  | cons c cs ih =>
    intro init
    rw [show assignFold d_max init (c :: cs) =
          assignFold d_max (assign_step d_max init c) cs from rfl]
    by_cases h : c.2 < d_max ^ 2 ∧ c.2 < init.1
    · have hstep : assign_step d_max init c = (c.2, c.1) := by
        rw [assign_step, if_pos h]
      rcases ih (assign_step d_max init c) with h2 | ⟨c', hc', he, hlt⟩
      · exact Or.inr ⟨c, by simp, by rw [h2, hstep], h.1⟩
      · exact Or.inr ⟨c', by simp [hc'], he, hlt⟩
    · have hstep : assign_step d_max init c = init := by
        rw [assign_step, if_neg h]
      rw [hstep]
      rcases ih init with h2 | ⟨c', hc', he, hlt⟩
      · exact Or.inl h2
      · exact Or.inr ⟨c', by simp [hc'], he, hlt⟩

theorem min_cand_sq_le (cands : List (ℚ × ℚ)) (c : ℚ × ℚ) (hc : c ∈ cands) :
    min_cand_sq cands ≤ c.2 :=
  foldl_min_le_mem _ _ _ (List.mem_map_of_mem Prod.snd hc)

theorem assignFold_unassigned (d_max : ℚ) (cands : List (ℚ × ℚ))
    (hm : ¬ min_cand_sq cands < d_max ^ 2) :
    assignFold d_max (sentinelSq, sentinel) cands = (sentinelSq, sentinel) := by
  rcases assignFold_result d_max cands (sentinelSq, sentinel) with h | ⟨c, hc, -, hlt⟩
  · exact h
  · exact absurd (lt_of_le_of_lt (min_cand_sq_le cands c hc) hlt) hm

theorem assignFold_fst_char (d_max : ℚ) (hd : d_max ^ 2 ≤ sentinelSq)
    (cands : List (ℚ × ℚ)) :
    (assignFold d_max (sentinelSq, sentinel) cands).1 =
      if min_cand_sq cands < d_max ^ 2 then min_cand_sq cands else sentinelSq := by
  by_cases hm : min_cand_sq cands < d_max ^ 2
  · rw [if_pos hm, assignFold_fst_filter]
    have hmem : min_cand_sq cands ∈ cands.map Prod.snd := by
      rcases foldl_min_cases (cands.map Prod.snd) sentinelSq with h | h
      · exact absurd (h ▸ hm) (not_lt.mpr hd)
      · exact h
    obtain ⟨c, hc, hcm⟩ := List.mem_map.mp hmem
    have hcf : c ∈ cands.filter (fun c => decide (c.2 < d_max ^ 2)) :=
      List.mem_filter.mpr ⟨hc, by simp [hcm, hm]⟩
    apply le_antisymm
    · exact foldl_min_le_mem _ _ _ (hcm ▸ List.mem_map_of_mem Prod.snd hcf)
    · apply le_foldl_min
      · exact le_trans (le_of_lt hm) hd
      · intro x hx
        obtain ⟨c', hc', hcx⟩ := List.mem_map.mp hx
        exact hcx ▸ min_cand_sq_le cands c' (List.mem_of_mem_filter hc')
  · rw [if_neg hm, assignFold_unassigned d_max cands hm]

theorem assignFold_attain (d_max : ℚ) (hd : d_max ^ 2 ≤ sentinelSq)
    (cands : List (ℚ × ℚ)) (hm : min_cand_sq cands < d_max ^ 2) :
    ∃ c ∈ cands, c.2 = min_cand_sq cands ∧
      (assignFold d_max (sentinelSq, sentinel) cands).2 = c.1 := by
  rcases assignFold_result d_max cands (sentinelSq, sentinel) with h | ⟨c, hc, he, -⟩
  · have h1 := assignFold_fst_char d_max hd cands
    rw [if_pos hm, h] at h1
    exact absurd h1.symm (ne_of_lt (lt_of_lt_of_le hm hd))
  · have h1 := assignFold_fst_char d_max hd cands
    rw [if_pos hm, he] at h1
    exact ⟨c, hc, h1, by rw [he]⟩

end Dendromatics

namespace Dendromatics

section ExactLoopPointwise

variable (pca : PCAOracle) (dev : Row → ℚ) (vox stripe : Cloud) (hrv d_max : ℚ)
  (X Y Z Z0 tid : Int) (nvals : ℕ) (hook : Bool)

theorem exact_loop_assign_length :
    ∀ (ids : List ℚ) (s : ExState), s.assign.length = vox.length →
      (exact_loop pca dev vox stripe hrv d_max X Y Z Z0 tid nvals hook ids s).assign.length =
        vox.length := by
  intro ids
  induction ids with
  | nil => intro s hlen; exact hlen
  | cons i rest ih =>
    intro s hlen
    rw [show exact_loop pca dev vox stripe hrv d_max X Y Z Z0 tid nvals hook (i :: rest) s =
          exact_loop pca dev vox stripe hrv d_max X Y Z Z0 tid nvals hook rest
            (ex_step pca dev vox stripe hrv d_max X Y Z Z0 tid nvals hook s i) from rfl]
    apply ih
    by_cases hv : valid_stem stripe tid X Y Z hrv i
    · rw [show (ex_step pca dev vox stripe hrv d_max X Y Z Z0 tid nvals hook s i).assign =
            List.zipWith (fun dt a => assign_step d_max dt (i, a)) s.assign
              (vox.map (axis_dist_sq pca stripe tid X Y Z i)) from by
          rw [ex_step]; rw [if_pos hv]]
      rw [List.length_zipWith, hlen, List.length_map]
      exact Nat.min_self _
    · rw [show (ex_step pca dev vox stripe hrv d_max X Y Z Z0 tid nvals hook s i).assign =
            s.assign from by rw [ex_step]; rw [if_neg hv]]
      exact hlen

theorem exact_loop_assign_getD (j : ℕ) (hj : j < vox.length) :
    ∀ (ids : List ℚ) (s : ExState), s.assign.length = vox.length →
      (exact_loop pca dev vox stripe hrv d_max X Y Z Z0 tid nvals hook ids s).assign.getD j (0, 0) =
        assignFold d_max (s.assign.getD j (0, 0))
          ((ids.filter (fun i => valid_stem stripe tid X Y Z hrv i)).map
            (fun i => (i, axis_dist_sq pca stripe tid X Y Z i (vox.getD j [])))) := by
  intro ids
  induction ids with
  | nil => intro s _; rfl
  | cons i rest ih =>
    intro s hlen
    rw [show exact_loop pca dev vox stripe hrv d_max X Y Z Z0 tid nvals hook (i :: rest) s =
          exact_loop pca dev vox stripe hrv d_max X Y Z Z0 tid nvals hook rest
            (ex_step pca dev vox stripe hrv d_max X Y Z Z0 tid nvals hook s i) from rfl]
    by_cases hv : valid_stem stripe tid X Y Z hrv i
    · have hstep : (ex_step pca dev vox stripe hrv d_max X Y Z Z0 tid nvals hook s i).assign =
          List.zipWith (fun dt a => assign_step d_max dt (i, a)) s.assign
            (vox.map (axis_dist_sq pca stripe tid X Y Z i)) := by
        rw [ex_step]; rw [if_pos hv]
      have hlen' : (ex_step pca dev vox stripe hrv d_max X Y Z Z0 tid nvals hook s i).assign.length =
          vox.length := by
        rw [hstep, List.length_zipWith, hlen, List.length_map]
        exact Nat.min_self _
      rw [ih _ hlen']
      rw [show (ex_step pca dev vox stripe hrv d_max X Y Z Z0 tid nvals hook s i).assign.getD j (0, 0) =
            assign_step d_max (s.assign.getD j (0, 0))
              (i, axis_dist_sq pca stripe tid X Y Z i (vox.getD j [])) from by
        rw [hstep, getD_zipWith_lt _ s.assign _ j (by rw [hlen]; exact hj)
            (by rw [List.length_map]; exact hj) (0, 0) (0, 0) 0,
          getD_map_lt _ vox j hj 0 []]]
      rw [show (i :: rest).filter (fun i' => valid_stem stripe tid X Y Z hrv i') =
            i :: rest.filter (fun i' => valid_stem stripe tid X Y Z hrv i') from by
          simp [List.filter_cons, hv]]
      rw [List.map_cons]
      rfl
    · have hstep : (ex_step pca dev vox stripe hrv d_max X Y Z Z0 tid nvals hook s i).assign =
          s.assign := by rw [ex_step]; rw [if_neg hv]
      rw [ih _ (by rw [hstep]; exact hlen), hstep]
      rw [show (i :: rest).filter (fun i' => valid_stem stripe tid X Y Z hrv i') =
            rest.filter (fun i' => valid_stem stripe tid X Y Z hrv i') from by
          simp [List.filter_cons, hv]]

end ExactLoopPointwise

end Dendromatics

namespace Dendromatics

/-- C6: in `compute_axes_exact` the final assignment of each point is the
minimum over all valid axes.  Writing `m` for the least squared axis distance
of point `j` over the valid axes (`sentinelSq` when there is none): the
returned squared distance is `m` when `m < d_max²` and the sentinel
otherwise; when assigned, the returned tree id is an axis attaining `m`; when
not assigned both entries are sentinels; a reassignment in the per-stem
update happens exactly when the new axis is strictly closer than the recorded
one and closer than `d_max`; and the final distance is invariant under any
permutation of the enumeration order of the candidate cluster ids. -/
theorem C6_exact_assignment_minimal
    (pca : PCAOracle) (dev : Row → ℚ) (vox stripe : Cloud) (lo hi hr : ℚ)
    (minp : ℕ) (d_max : ℚ) (X Y Z Z0 tid : Int) (hook : Bool) (j : ℕ)
    (hd : d_max ^ 2 ≤ sentinelSq) (hj : j < vox.length) :
    ((compute_axes_exact pca dev vox stripe lo hi hr minp d_max X Y Z Z0 tid hook).2.1.getD j 0 =
      if min_cand_sq (point_cands pca stripe tid X Y Z ((hi - lo) * hr) minp (vox.getD j [])) < d_max ^ 2 then min_cand_sq (point_cands pca stripe tid X Y Z ((hi - lo) * hr) minp (vox.getD j [])) else sentinelSq) ∧
    (min_cand_sq (point_cands pca stripe tid X Y Z ((hi - lo) * hr) minp (vox.getD j [])) < d_max ^ 2 →
      ∃ c ∈ (point_cands pca stripe tid X Y Z ((hi - lo) * hr) minp (vox.getD j [])), c.2 = min_cand_sq (point_cands pca stripe tid X Y Z ((hi - lo) * hr) minp (vox.getD j [])) ∧
        (compute_axes_exact pca dev vox stripe lo hi hr minp d_max X Y Z Z0 tid hook).2.2.1.getD j 0 = c.1) ∧
    (¬ min_cand_sq (point_cands pca stripe tid X Y Z ((hi - lo) * hr) minp (vox.getD j [])) < d_max ^ 2 →
      (compute_axes_exact pca dev vox stripe lo hi hr minp d_max X Y Z Z0 tid hook).2.1.getD j 0 = sentinelSq ∧
      (compute_axes_exact pca dev vox stripe lo hi hr minp d_max X Y Z Z0 tid hook).2.2.1.getD j 0 = sentinel) ∧
    (∀ dt c : ℚ × ℚ,
      (c.2 < d_max ^ 2 ∧ c.2 < dt.1 → assign_step d_max dt c = (c.2, c.1)) ∧
      (¬ (c.2 < d_max ^ 2 ∧ c.2 < dt.1) → assign_step d_max dt c = dt)) ∧
    (∀ ids2 : List ℚ, (filt_ids (stripe.map (fun r => fget r tid)) minp).Perm ids2 →
      ((exact_loop pca dev vox stripe ((hi - lo) * hr) d_max X Y Z Z0 tid
          (filt_ids (stripe.map (fun r => fget r tid)) minp).length hook ids2
          (ex_init vox hook (filt_ids (stripe.map (fun r => fget r tid)) minp).length)).assign.map Prod.fst).getD j 0 =
        (compute_axes_exact pca dev vox stripe lo hi hr minp d_max X Y Z Z0 tid hook).2.1.getD j 0) := by
  have hinitlen : (ex_init vox hook (filt_ids (stripe.map (fun r => fget r tid)) minp).length).assign.length = vox.length := by
    rw [ex_init]
    exact List.length_replicate _ _
  have hkey : ∀ ids2 : List ℚ,
      (exact_loop pca dev vox stripe ((hi - lo) * hr) d_max X Y Z Z0 tid
          (filt_ids (stripe.map (fun r => fget r tid)) minp).length hook ids2
          (ex_init vox hook (filt_ids (stripe.map (fun r => fget r tid)) minp).length)).assign.getD j (0, 0) =
        assignFold d_max (sentinelSq, sentinel)
          ((ids2.filter (fun i => valid_stem stripe tid X Y Z ((hi - lo) * hr) i)).map
            (fun i => (i, axis_dist_sq pca stripe tid X Y Z i (vox.getD j [])))) := by
    intro ids2
    rw [exact_loop_assign_getD pca dev vox stripe ((hi - lo) * hr) d_max X Y Z Z0 tid
        (filt_ids (stripe.map (fun r => fget r tid)) minp).length hook j hj ids2 _ hinitlen]
    rw [show (ex_init vox hook (filt_ids (stripe.map (fun r => fget r tid)) minp).length).assign.getD j (0, 0) =
          ((sentinelSq, sentinel) : ℚ × ℚ) from by
      rw [ex_init]
      exact getD_replicate_lt _ _ _ j hj]
  have hout1 : (compute_axes_exact pca dev vox stripe lo hi hr minp d_max X Y Z Z0 tid hook).2.1.getD j 0 =
      ((exact_loop pca dev vox stripe ((hi - lo) * hr) d_max X Y Z Z0 tid
          (filt_ids (stripe.map (fun r => fget r tid)) minp).length hook (filt_ids (stripe.map (fun r => fget r tid)) minp)
          (ex_init vox hook (filt_ids (stripe.map (fun r => fget r tid)) minp).length)).assign.getD j (0, 0)).1 :=
    getD_map_lt Prod.fst _ j
      (by rw [exact_loop_assign_length pca dev vox stripe ((hi - lo) * hr) d_max X Y Z Z0 tid
          (filt_ids (stripe.map (fun r => fget r tid)) minp).length hook
          (filt_ids (stripe.map (fun r => fget r tid)) minp) _ hinitlen]
          exact hj) 0 (0, 0)
  have hout2 : (compute_axes_exact pca dev vox stripe lo hi hr minp d_max X Y Z Z0 tid hook).2.2.1.getD j 0 =
      ((exact_loop pca dev vox stripe ((hi - lo) * hr) d_max X Y Z Z0 tid
          (filt_ids (stripe.map (fun r => fget r tid)) minp).length hook (filt_ids (stripe.map (fun r => fget r tid)) minp)
          (ex_init vox hook (filt_ids (stripe.map (fun r => fget r tid)) minp).length)).assign.getD j (0, 0)).2 :=
    getD_map_lt Prod.snd _ j
      (by rw [exact_loop_assign_length pca dev vox stripe ((hi - lo) * hr) d_max X Y Z Z0 tid
          (filt_ids (stripe.map (fun r => fget r tid)) minp).length hook
          (filt_ids (stripe.map (fun r => fget r tid)) minp) _ hinitlen]
          exact hj) 0 (0, 0)
  refine ⟨?_, ?_, ?_, ?_, ?_⟩
  · rw [hout1, hkey (filt_ids (stripe.map (fun r => fget r tid)) minp)]
    exact assignFold_fst_char d_max hd _
  · intro hm
    obtain ⟨c, hc, hcm, hsnd⟩ := assignFold_attain d_max hd
      (((filt_ids (stripe.map (fun r => fget r tid)) minp).filter (fun i => valid_stem stripe tid X Y Z ((hi - lo) * hr) i)).map
        (fun i => (i, axis_dist_sq pca stripe tid X Y Z i (vox.getD j [])))) hm
    exact ⟨c, hc, hcm, by rw [hout2, hkey (filt_ids (stripe.map (fun r => fget r tid)) minp)]; exact hsnd⟩
  · intro hm
    have hun := assignFold_unassigned d_max
      (((filt_ids (stripe.map (fun r => fget r tid)) minp).filter (fun i => valid_stem stripe tid X Y Z ((hi - lo) * hr) i)).map
        (fun i => (i, axis_dist_sq pca stripe tid X Y Z i (vox.getD j [])))) hm
    constructor
    · rw [hout1, hkey (filt_ids (stripe.map (fun r => fget r tid)) minp), hun]
    · rw [hout2, hkey (filt_ids (stripe.map (fun r => fget r tid)) minp), hun]
  · intro dt c
    exact ⟨fun h => by rw [assign_step]; exact if_pos h,
           fun h => by rw [assign_step]; exact if_neg h⟩
  · intro ids2 hperm
    have hlen2 := exact_loop_assign_length pca dev vox stripe ((hi - lo) * hr) d_max
      X Y Z Z0 tid (filt_ids (stripe.map (fun r => fget r tid)) minp).length hook ids2 _ hinitlen
    rw [getD_map_lt Prod.fst _ j (by rw [hlen2]; exact hj) 0 (0, 0), hkey ids2, hout1,
      hkey (filt_ids (stripe.map (fun r => fget r tid)) minp)]
    have hpf := List.Perm.filter
      (fun i => valid_stem stripe tid X Y Z ((hi - lo) * hr) i) hperm
    have hpm := hpf.map
      (fun i => (i, axis_dist_sq pca stripe tid X Y Z i (vox.getD j [])))
    have hmm := foldl_min_perm (hpm.map Prod.snd) sentinelSq
    rw [assignFold_fst_char d_max hd _, assignFold_fst_char d_max hd _]
    rw [show min_cand_sq
          ((ids2.filter (fun i => valid_stem stripe tid X Y Z ((hi - lo) * hr) i)).map
            (fun i => (i, axis_dist_sq pca stripe tid X Y Z i (vox.getD j [])))) =
        min_cand_sq
          (((filt_ids (stripe.map (fun r => fget r tid)) minp).filter (fun i => valid_stem stripe tid X Y Z ((hi - lo) * hr) i)).map
            (fun i => (i, axis_dist_sq pca stripe tid X Y Z i (vox.getD j [])))) from
      (hmm).symm]

end Dendromatics

namespace Dendromatics

unseal Rat.add Rat.mul Rat.inv Rat.sub in
/-- Witness for C6 at a one-point cloud and a single valid stem cluster. -/
theorem C6_exact_assignment_minimal_witness :
    ((3 / 2 : ℚ) ^ 2 ≤ sentinelSq) ∧ (0 < ([[0,0,0,0]] : Cloud).length) ∧
    (((compute_axes_exact pca_triv dev0 [[0,0,0,0]] [[0,0,0,0,3],[1/2,0,2,0,3]] 0 1 1 1 (3/2) 0 1 2 3 (-1) false).2.1.getD 0 0 =
      if min_cand_sq (point_cands pca_triv [[0,0,0,0,3],[1/2,0,2,0,3]] (-1) 0 1 2 ((1 - 0) * 1) 1 (([[0,0,0,0]] : Cloud).getD 0 [])) < (3 / 2 : ℚ) ^ 2 then min_cand_sq (point_cands pca_triv [[0,0,0,0,3],[1/2,0,2,0,3]] (-1) 0 1 2 ((1 - 0) * 1) 1 (([[0,0,0,0]] : Cloud).getD 0 [])) else sentinelSq) ∧
    (min_cand_sq (point_cands pca_triv [[0,0,0,0,3],[1/2,0,2,0,3]] (-1) 0 1 2 ((1 - 0) * 1) 1 (([[0,0,0,0]] : Cloud).getD 0 [])) < (3 / 2 : ℚ) ^ 2 →
      ∃ c ∈ (point_cands pca_triv [[0,0,0,0,3],[1/2,0,2,0,3]] (-1) 0 1 2 ((1 - 0) * 1) 1 (([[0,0,0,0]] : Cloud).getD 0 [])), c.2 = min_cand_sq (point_cands pca_triv [[0,0,0,0,3],[1/2,0,2,0,3]] (-1) 0 1 2 ((1 - 0) * 1) 1 (([[0,0,0,0]] : Cloud).getD 0 [])) ∧
        (compute_axes_exact pca_triv dev0 [[0,0,0,0]] [[0,0,0,0,3],[1/2,0,2,0,3]] 0 1 1 1 (3/2) 0 1 2 3 (-1) false).2.2.1.getD 0 0 = c.1) ∧
    (¬ min_cand_sq (point_cands pca_triv [[0,0,0,0,3],[1/2,0,2,0,3]] (-1) 0 1 2 ((1 - 0) * 1) 1 (([[0,0,0,0]] : Cloud).getD 0 [])) < (3 / 2 : ℚ) ^ 2 →
      (compute_axes_exact pca_triv dev0 [[0,0,0,0]] [[0,0,0,0,3],[1/2,0,2,0,3]] 0 1 1 1 (3/2) 0 1 2 3 (-1) false).2.1.getD 0 0 = sentinelSq ∧
      (compute_axes_exact pca_triv dev0 [[0,0,0,0]] [[0,0,0,0,3],[1/2,0,2,0,3]] 0 1 1 1 (3/2) 0 1 2 3 (-1) false).2.2.1.getD 0 0 = sentinel) ∧
    (∀ dt c : ℚ × ℚ,
      (c.2 < (3 / 2 : ℚ) ^ 2 ∧ c.2 < dt.1 → assign_step (3/2) dt c = (c.2, c.1)) ∧
      (¬ (c.2 < (3 / 2 : ℚ) ^ 2 ∧ c.2 < dt.1) → assign_step (3/2) dt c = dt)) ∧
    (∀ ids2 : List ℚ, (filt_ids (([[0,0,0,0,3],[1/2,0,2,0,3]] : Cloud).map (fun r => fget r (-1))) 1).Perm ids2 →
      ((exact_loop pca_triv dev0 [[0,0,0,0]] [[0,0,0,0,3],[1/2,0,2,0,3]] ((1 - 0) * 1) (3/2) 0 1 2 3 (-1)
          (filt_ids (([[0,0,0,0,3],[1/2,0,2,0,3]] : Cloud).map (fun r => fget r (-1))) 1).length false ids2
          (ex_init [[0,0,0,0]] false (filt_ids (([[0,0,0,0,3],[1/2,0,2,0,3]] : Cloud).map (fun r => fget r (-1))) 1).length)).assign.map Prod.fst).getD 0 0 =
        (compute_axes_exact pca_triv dev0 [[0,0,0,0]] [[0,0,0,0,3],[1/2,0,2,0,3]] 0 1 1 1 (3/2) 0 1 2 3 (-1) false).2.1.getD 0 0)) :=
  ⟨by decide, by decide,
    C6_exact_assignment_minimal pca_triv dev0 [[0,0,0,0]] [[0,0,0,0,3],[1/2,0,2,0,3]]
      0 1 1 1 (3/2) 0 1 2 3 (-1) false 0 (by decide) (by decide)⟩

end Dendromatics

namespace Dendromatics

/-- C7: for an axis direction with vertical component exactly zero and
nonzero horizontal part, the deviation-angle computation of lines 145–151 /
415–421 — `abs(degrees(arctan(hypot(x, y) / z)))` under IEEE-754 semantics,
where the positive numerator over zero gives +inf and `arctan(+inf) = π/2` —
records exactly 90 degrees rather than failing or producing an undefined
value. -/
theorem C7_zero_vertical_deviation_is_ninety (x y z : ℝ) (hz : z = 0)
    (hxy : 0 < x ^ 2 + y ^ 2) :
    deviation_deg Real.sqrt Real.arctan Real.pi x y z = FV.fin 90 := by
  subst hz
  have hs : 0 < Real.sqrt (x ^ 2 + y ^ 2) := Real.sqrt_pos.mpr hxy
  have h90 : Real.pi / 2 * 180 / Real.pi = 90 := by
    field_simp
    ring
  simp [deviation_deg, fdiv, fatan, fdegrees, fabs, hs, h90, abs_of_pos]

/-- Witness for C7 at the concrete horizontal axis (1, 0, 0). -/
theorem C7_zero_vertical_deviation_is_ninety_witness :
    (0 : ℝ) = 0 ∧ (0 : ℝ) < 1 ^ 2 + 0 ^ 2 ∧
      deviation_deg Real.sqrt Real.arctan Real.pi 1 0 0 = FV.fin 90 :=
  ⟨rfl, by norm_num, C7_zero_vertical_deviation_is_ninety 1 0 0 rfl (by norm_num)⟩

end Dendromatics
